import Mathlib

/-!
Verification of the peepsy IPC supervisor (master/child process pool) against its
natural-language specification.  The TypeScript sources are shallowly embedded:
JavaScript `Map`s become association lists (insertion-ordered, like JS maps),
`Date.now()` becomes an explicit `now : Int` parameter, numbers become `Int`/`Nat`
(`Rat` for the response-time EMA), and the asynchronous callback structure becomes
an explicit state machine whose events are the synchronous blocks of the source.
-/

namespace Peepsy

/-- Association-list lookup, modelling `Map.prototype.get` (first binding wins;
maps built by `alSet` have unique keys). -/
def alGet [DecidableEq κ] (k : κ) : List (κ × β) → Option β
  | [] => none
  | (k', v) :: rest => if k' = k then some v else alGet k rest

/-- Association-list update, modelling `Map.prototype.set`: replaces the binding in
place if present, otherwise appends at the end (JS maps keep insertion order). -/
def alSet [DecidableEq κ] (k : κ) (v : β) : List (κ × β) → List (κ × β)
  | [] => [(k, v)]
  | (k', v') :: rest => if k' = k then (k, v) :: rest else (k', v') :: alSet k v rest

/-- Association-list removal, modelling `Map.prototype.delete`. -/
def alErase [DecidableEq κ] (k : κ) : List (κ × β) → List (κ × β)
  | [] => []
  | p :: rest => if p.1 = k then alErase k rest else p :: alErase k rest

/-- Whether the list starts with the given pattern (helper for substring search). -/
def startsWith [DecidableEq α] : List α → List α → Bool
  | _, [] => true
  | [], _ :: _ => false
  | a :: as, b :: bs => a = b && startsWith as bs

/-- Whether `sub` occurs contiguously inside `l` (helper for substring search). -/
def containsSub [DecidableEq α] : List α → List α → Bool
  | l, sub =>
    startsWith l sub ||
      match l with
      | [] => false
      | _ :: t => containsSub t sub

/-- String containment: `needle` occurs as a substring of `hay`.  Used to state the
spec's "message contains X" conditions. -/
def strContains (hay needle : String) : Bool :=
  containsSub hay.toList needle.toList

theorem startsWith_refl [DecidableEq α] (l : List α) : startsWith l l = true := by
  induction l with
  | nil => rfl
  | cons a as ih => simp [startsWith, ih]

theorem strContains_refl (s : String) : strContains s s = true := by
  show containsSub s.toList s.toList = true
  unfold containsSub
  simp [startsWith_refl]

/-! ## Priority queue (`src/utils.ts`, class `PriorityQueue`)

A queue entry carries the stored item, its priority, the absolute expiry time
(`Date.now() + timeout`) and the enqueue timestamp. -/

structure QueueItem (α : Type) where
  item : α
  priority : Int
  expiry : Int
  timestamp : Int
deriving DecidableEq

/-- The comparator `(a, b) => a.priority - b.priority` of `queue.sort`, as the
Boolean "sorts no later than" relation. -/
def qLe (a b : QueueItem α) : Bool := a.priority ≤ b.priority

namespace PriorityQueue

/-- `enqueue(item, priority, timeout)`: computes `expiry = Date.now() + timeout`,
pushes the new entry at the back and re-sorts with
`queue.sort((a, b) => a.priority - b.priority)`.  `Array.prototype.sort` is a
stable sort (ECMA-262), embedded here as Lean's stable `List.mergeSort`. -/
def enqueue (now : Int) (q : List (QueueItem α)) (item : α) (priority : Int)
    (timeout : Int) : List (QueueItem α) :=
  (q ++ [({ item := item, priority := priority, expiry := now + timeout,
            timestamp := now } : QueueItem α)]).mergeSort qLe

/-- `dequeue()`: repeatedly shifts the front entry, returning the first one whose
expiry has not passed (`Date.now() < expiry`); returns `null` (and empties the
queue) when every entry has expired.  Result: returned item (if any) and the
remaining queue. -/
def dequeue (now : Int) : List (QueueItem α) → Option α × List (QueueItem α)
  | [] => (none, [])
  | e :: rest => if now < e.expiry then (some e.item, rest) else dequeue now rest

end PriorityQueue

/-- Ascending-priority sortedness of a queue state (the invariant the source
maintains by re-sorting on every push). -/
def QSorted (q : List (QueueItem α)) : Prop :=
  q.Pairwise (fun a b => qLe a b = true)

theorem qLe_trans (a b c : QueueItem α) (hab : qLe a b) (hbc : qLe b c) : qLe a c := by
  simp only [qLe, decide_eq_true_eq] at *
  omega

theorem qLe_total (a b : QueueItem α) : qLe a b || qLe b a := by
  simp only [qLe]
  by_cases h : a.priority ≤ b.priority
  · simp [h]
  · simp [h]
    omega

/-- Stability of push-then-sort: appending `x` to an already sorted queue and
re-sorting with the stable sort places `x` exactly after every entry of priority
less than or equal to its own, leaving all other entries in place. -/
theorem mergeSort_sorted_concat (x : QueueItem α) (q : List (QueueItem α))
    (hq : QSorted q) :
    (q ++ [x]).mergeSort qLe
      = q.takeWhile (fun b => qLe b x) ++ x :: q.dropWhile (fun b => qLe b x) := by
  induction q with
  | nil => simp
  | cons b q' ih =>
    have hq' : QSorted q' := hq.of_cons
    have hb : ∀ c ∈ q', qLe b c = true := fun c hc => List.rel_of_pairwise_cons hq hc
    by_cases hbx : qLe b x = true
    · obtain ⟨l₁, l₂, h₁, h₂, h₃⟩ :=
        @List.mergeSort_cons _ qLe qLe_trans qLe_total b (q' ++ [x])
      have hl₁ : l₁ = [] := by
        cases l₁ with
        | nil => rfl
        | cons c t =>
          have hc : c ∈ (q' ++ [x]).mergeSort qLe := by
            rw [h₂]
            exact List.mem_append_left _ (List.mem_cons_self c t)
          have hc' : c ∈ q' ++ [x] := List.mem_mergeSort.mp hc
          have hbc : qLe b c = true := by
            rcases List.mem_append.mp hc' with h | h
            · exact hb c h
            · have : c = x := List.mem_singleton.mp h
              rw [this]
              exact hbx
          have := h₃ c (List.mem_cons_self c t)
          simp [hbc] at this
      subst hl₁
      simp only [List.nil_append] at h₁ h₂
      rw [List.cons_append, h₁, ← h₂, ih hq', List.takeWhile_cons, List.dropWhile_cons]
      simp [hbx]
    · have hq'x : ∀ c ∈ q', ¬ (qLe c x = true) := by
        intro c hc hcx
        exact hbx (qLe_trans b c x (hb c hc) hcx)
      have htake : q'.takeWhile (fun e => qLe e x) = [] := by
        cases q' with
        | nil => rfl
        | cons c t =>
          have := hq'x c (List.mem_cons_self c t)
          simp [List.takeWhile_cons, this]
      have hdrop : q'.dropWhile (fun e => qLe e x) = q' := by
        cases q' with
        | nil => rfl
        | cons c t =>
          have := hq'x c (List.mem_cons_self c t)
          simp [List.dropWhile_cons, this]
      have ihx : (q' ++ [x]).mergeSort qLe = x :: q' := by
        rw [ih hq', htake, hdrop]
        rfl
      obtain ⟨l₁, l₂, h₁, h₂, h₃⟩ :=
        @List.mergeSort_cons _ qLe qLe_trans qLe_total b (q' ++ [x])
      rw [ihx] at h₂
      cases l₁ with
      | nil =>
        subst h₂
        have hs := @List.sorted_mergeSort _ qLe qLe_trans qLe_total (b :: (q' ++ [x]))
        rw [h₁] at hs
        have : qLe b x = true := List.rel_of_pairwise_cons hs (List.mem_cons_self x q')
        exact absurd this hbx
      | cons c t =>
        simp only [List.cons_append, List.cons.injEq] at h₂
        obtain ⟨rfl, ht⟩ := h₂
        cases t with
        | nil =>
          simp only [List.nil_append] at ht
          subst ht
          rw [List.cons_append, h₁, List.takeWhile_cons, List.dropWhile_cons]
          simp [hbx, htake, hdrop]
        | cons d t' =>
          have hd : d ∈ q' := by
            rw [ht]
            exact List.mem_append_left _ (List.mem_cons_self d t')
          have h1 := hb d hd
          have h2 := h₃ d (List.mem_cons_of_mem _ (List.mem_cons_self d t'))
          simp [h1] at h2

/-- Entries kept ahead of the new item all have priority at most `p` (for a sorted
queue), and entries pushed behind it all have strictly greater priority. -/
theorem dropWhile_gt_of_sorted (x : QueueItem α) (q : List (QueueItem α))
    (hq : QSorted q) :
    ∀ e ∈ q.dropWhile (fun b => qLe b x), x.priority < e.priority := by
  induction q with
  | nil => intro e he; simp [List.dropWhile] at he
  | cons b q' ih =>
    intro e he
    rw [List.dropWhile_cons] at he
    by_cases hbx : qLe b x = true
    · simp only [hbx, if_true] at he
      exact ih hq.of_cons e he
    · simp only [hbx] at he
      simp at he
      rcases he with rfl | he
      · simp only [qLe, decide_eq_true_eq] at hbx
        omega
      · have hbe : qLe b e = true := List.rel_of_pairwise_cons hq he
        simp only [qLe, decide_eq_true_eq] at hbx hbe
        omega

/-- Claim C9: `PriorityQueue.enqueue` stamps `expiry = now + timeout_ms` on the new
entry and keeps the queue sorted by ascending priority with equal-priority entries
in insertion order (the new entry lands immediately after every existing entry of
priority ≤ its own and before every entry of strictly greater priority), and
`dequeue` discards leading expired entries and returns the first item with
`now < expiry`, or `null` when no non-expired item leads the queue. -/
theorem peepsy_C9 {α : Type} (now : Int) (q : List (QueueItem α)) (item : α)
    (p timeout : Int) (hq : QSorted q) :
    (PriorityQueue.enqueue now q item p timeout
        = q.takeWhile (fun b => qLe b ⟨item, p, now + timeout, now⟩)
            ++ ({ item := item, priority := p, expiry := now + timeout,
                  timestamp := now } : QueueItem α)
            :: q.dropWhile (fun b => qLe b ⟨item, p, now + timeout, now⟩))
      ∧ (∀ e ∈ q.takeWhile (fun b => qLe b ⟨item, p, now + timeout, now⟩),
          e.priority ≤ p)
      ∧ (∀ e ∈ q.dropWhile (fun b => qLe b ⟨item, p, now + timeout, now⟩),
          p < e.priority)
      ∧ QSorted (PriorityQueue.enqueue now q item p timeout)
      ∧ (∀ (now' : Int) (q' : List (QueueItem α)),
          PriorityQueue.dequeue now' q'
            = (((q'.dropWhile (fun e => decide (e.expiry ≤ now'))).head?).map (·.item),
               (q'.dropWhile (fun e => decide (e.expiry ≤ now'))).tail)) := by
  refine ⟨mergeSort_sorted_concat _ q hq, ?_, ?_, ?_, ?_⟩
  · intro e he
    have := List.mem_takeWhile_imp he
    simp only [qLe, decide_eq_true_eq] at this
    exact this
  · exact dropWhile_gt_of_sorted _ q hq
  · exact @List.sorted_mergeSort _ qLe qLe_trans qLe_total _
  · intro now' q'
    induction q' with
    | nil => rfl
    | cons e rest ih =>
      rw [PriorityQueue.dequeue, List.dropWhile_cons]
      by_cases h : now' < e.expiry
      · have : (decide (e.expiry ≤ now')) = false := by
          simp
          omega
        simp [h, this]
      · have : (decide (e.expiry ≤ now')) = true := by
          simp
          omega
        simp [h, this, ih]

/-- Witness for C9 at a concrete queue: two equal-priority entries already present
(in insertion order), a third enqueued behind them. -/
theorem peepsy_C9_witness :
    QSorted [({ item := "a", priority := 0, expiry := 10, timestamp := 0 } : QueueItem String),
             { item := "b", priority := 0, expiry := 11, timestamp := 1 }]
      ∧ PriorityQueue.enqueue 2
            [({ item := "a", priority := 0, expiry := 10, timestamp := 0 } : QueueItem String),
             { item := "b", priority := 0, expiry := 11, timestamp := 1 }] "c" 0 5
          = [{ item := "a", priority := 0, expiry := 10, timestamp := 0 },
             { item := "b", priority := 0, expiry := 11, timestamp := 1 },
             { item := "c", priority := 0, expiry := 7, timestamp := 2 }] := by
  have h := @peepsy_C9 String 2
    [{ item := "a", priority := 0, expiry := 10, timestamp := 0 },
     { item := "b", priority := 0, expiry := 11, timestamp := 1 }] "c" 0 5
    (by unfold QSorted; simp [qLe])
  refine ⟨by unfold QSorted; simp [qLe], ?_⟩
  rw [h.1]
  rfl

/-! ## Child worker runtime (`PeepsyChild`)

Embeds the constructor and the REQUEST routing of the message handler, the
bounded-concurrency pump `processQueueWithConcurrency`, and the in-flight counter
updates of `processRequestImmediately`.  Handler bodies run asynchronously; their
completion is a separate event (`childComplete`). -/

inductive ProcessMode
  | sequential
  | concurrent
deriving DecidableEq

/-- An incoming `RequestMessage` (the `data` payload is irrelevant to routing). -/
structure ChildReq where
  id : Nat
  action : String
deriving DecidableEq

/-- How the child's message handler routed an incoming REQUEST. -/
inductive ChildRoute
  | ignored
  | seqEnqueued
  | boundedEnqueued
  | immediate
deriving DecidableEq

structure ChildState where
  mode : ProcessMode
  maxConcurrency : Option Int
  queue : Option (List (QueueItem ChildReq))
  isProcessing : Bool
  isShuttingDown : Bool
  requestsHandled : Nat
  requestsInProgress : Nat
deriving DecidableEq

/-- The `PeepsyChild` constructor: the priority queue is created only when
`mode === 'sequential'`; `maxConcurrency` is taken from `options.maxConcurrency`
(the constructor reads no environment variable). -/
def childInit (mode : ProcessMode) (maxConcurrency : Option Int) : ChildState :=
  { mode := mode
    maxConcurrency := maxConcurrency
    queue := if mode = ProcessMode.sequential then some [] else none
    isProcessing := false
    isShuttingDown := false
    requestsHandled := 0
    requestsInProgress := 0 }

/-- `enqueueRequest`: logs an error and drops the request when the queue is
absent, otherwise enqueues at priority 0 with the request timeout. -/
def enqueueRequest (now : Int) (c : ChildState) (req : ChildReq) (timeout : Int) :
    ChildState :=
  match c.queue with
  | none => c
  | some q =>
    { c with queue := some (PriorityQueue.enqueue now q req 0 timeout) }

/-- `processRequestImmediately`: increments `requestsInProgress` and starts the
handler (the decrement happens when the handler settles, `childComplete`). -/
def processRequestImmediately (c : ChildState) : ChildState :=
  { c with requestsInProgress := c.requestsInProgress + 1 }

/-- `processQueueWithConcurrency`: dequeues and launches handlers while the queue
is non-empty and `requestsInProgress < (maxConcurrency ?? MAX_SAFE_INTEGER)`. -/
def processQueueWithConcurrency (now : Int) : Nat → ChildState → ChildState
  | 0, c => c
  | fuel + 1, c =>
    if c.isShuttingDown then c
    else
      match c.queue with
      | none => c
      | some q =>
        if q.isEmpty then c
        else if (c.requestsInProgress : Int) < c.maxConcurrency.getD 9007199254740991 then
          let (req?, q') := PriorityQueue.dequeue now q
          let c := { c with queue := some q' }
          match req? with
          | some _ => processQueueWithConcurrency now fuel (processRequestImmediately c)
          | none => processQueueWithConcurrency now fuel c
        else c

/-- The REQUEST branch of the child's `process.on('message')` handler
(`setupMessageHandlers`): sequential mode enqueues; concurrent mode enqueues and
pumps only when `this.queue` exists and `maxConcurrency > 0`, otherwise the
request is dispatched immediately.  Returns the updated state and which route was
taken. -/
def childReceiveRequest (now : Int) (c : ChildState) (req : ChildReq)
    (timeout : Int) : ChildState × ChildRoute :=
  if c.isShuttingDown then (c, ChildRoute.ignored)
  else if c.mode = ProcessMode.sequential then
    (enqueueRequest now c req timeout, ChildRoute.seqEnqueued)
  else if c.queue.isSome && (match c.maxConcurrency with
      | some m => decide (0 < m)
      | none => false) then
    let c := enqueueRequest now c req timeout
    let fuel := (c.queue.getD []).length
    (processQueueWithConcurrency now fuel c, ChildRoute.boundedEnqueued)
  else
    (processRequestImmediately c, ChildRoute.immediate)

/-- Completion of a launched handler: the `finally` of
`processRequestImmediately` decrements the in-flight counter (and a successful
`processRequest` bumps `requestsHandled`). -/
def childComplete (c : ChildState) : ChildState :=
  { c with requestsInProgress := c.requestsInProgress - 1
           requestsHandled := c.requestsHandled + 1 }

/-- Helper: feed a list of requests into the child, one message event each. -/
def childReceiveAll (now : Int) (c : ChildState) : List ChildReq → ChildState × List ChildRoute
  | [] => (c, [])
  | r :: rs =>
    let (c', route) := childReceiveRequest now c r 5000
    let (c'', routes) := childReceiveAll now c' rs
    (c'', route :: routes)

/-- Claim C3 is false on the code: a child constructed in concurrent mode with
`maxConcurrency = 2` has no queue (the constructor creates it only for sequential
mode), so the bounded branch guarded by `this.queue && maxConcurrency > 0` is
unreachable; three incoming REQUESTs are all dispatched immediately and the
in-flight count reaches 3, exceeding the cap of 2.  The constructor also never
reads the `PEEPSY_MAX_CONCURRENCY` environment variable. -/
theorem peepsy_C3_code_bug :
    (childInit ProcessMode.concurrent (some 2)).queue = none
      ∧ (childReceiveAll 0 (childInit ProcessMode.concurrent (some 2))
            [⟨0, "delay"⟩, ⟨1, "delay"⟩, ⟨2, "delay"⟩]).2
          = [ChildRoute.immediate, ChildRoute.immediate, ChildRoute.immediate]
      ∧ (childReceiveAll 0 (childInit ProcessMode.concurrent (some 2))
            [⟨0, "delay"⟩, ⟨1, "delay"⟩, ⟨2, "delay"⟩]).1.requestsInProgress = 3 := by
  refine ⟨rfl, by decide, by decide⟩

/-! ## Master (`src/master.ts`, class `PeepsyMaster`)

State machine over the master's mutable fields.  `Date.now()` is an explicit
`now` parameter of each event; promise resolution/rejection is recorded in the
append-only `completions` log keyed by an abstract caller tag; `emit` calls are
recorded in the `events` log; `randomUUID()` is modelled by the fresh-counter
`nextId`, and child PIDs by `nextPid`; `Math.random()` draws from a tape. -/

abbrev Target := String

inductive Strategy
  | roundRobin
  | random
  | leastBusy
deriving DecidableEq

structure GroupConfig where
  strategy : Option Strategy
  maxConcurrency : Option Int
  disableAutoRestart : Option Bool
deriving DecidableEq

inductive HealthStatus
  | healthy
  | unhealthy
  | restarting
deriving DecidableEq

/-- `ProcessStats` (`src/types.ts`): `lastHeartbeatAt` and `status` are optional
fields of the interface. -/
structure ProcessStats where
  requestsHandled : Nat
  requestsActive : Nat
  averageResponseTime : ℚ
  lastActivity : Int
  errors : Nat
  lastHeartbeatAt : Option Int
  status : Option HealthStatus
deriving DecidableEq

/-- A `Partial<ProcessStats>` argument of `updateProcessStats`: each field is
present or absent. -/
structure StatsUpdate where
  requestsHandled : Option Nat
  requestsActive : Option Int
  averageResponseTime : Option ℚ
  lastActivity : Option Int
  errors : Option Nat
  lastHeartbeatAt : Option Int
  status : Option HealthStatus

def StatsUpdate.empty : StatsUpdate :=
  { requestsHandled := none, requestsActive := none, averageResponseTime := none,
    lastActivity := none, errors := none, lastHeartbeatAt := none, status := none }

/-- A `ChildProcessEntry`: the live process handle is modelled by its `pid`. -/
structure ChildEntry where
  pid : Nat
  mode : ProcessMode
  scriptPath : String
  groupId : Option String
deriving DecidableEq

structure GroupEntry where
  targets : List Target
  config : GroupConfig
deriving DecidableEq

/-- A pending request parked in a group's queue (the source stores the resolve
and reject continuations; they are modelled by the caller tag). -/
structure Pending where
  action : String
  timeout : Int
  caller : Nat
deriving DecidableEq

/-- An entry of `activeRequests`: the resolver closure created in
`executeRequest`, which captures the child handle (`childPid`), the
`targetOrGroup` string (`origin`, used in the timeout message), the request
timeout, `startTime`, and the awaiting caller. -/
structure ReqEntry where
  childPid : Nat
  origin : String
  timeoutMs : Int
  startTime : Int
  caller : Nat
deriving DecidableEq

inductive ErrCode
  | peepsyGeneric
  | peepsyTimeout
  | peepsyProcess
  | peepsyNotFound
deriving DecidableEq

/-- A typed peepsy error: `code` is the `PEEPSY_*` string, `message` the
human-readable message. -/
structure PeepsyErr where
  code : ErrCode
  message : String
deriving DecidableEq

inductive Outcome
  | resolvedOut (status : Int)
  | rejectedOut (e : PeepsyErr)
deriving DecidableEq

inductive Emitted
  | spawnEv (t : Target)
  | heartbeatMissed (t : Target) (timestamp : Int)
  | autoRestartEv (t : Target)
deriving DecidableEq

structure MasterState where
  processes : List (Target × ChildEntry)
  groups : List (String × GroupEntry)
  roundRobinCounters : List (String × Nat)
  activeRequests : List (Nat × ReqEntry)
  groupQueues : List (String × List Pending)
  processStats : List (Target × ProcessStats)
  completions : List (Nat × Outcome)
  events : List Emitted
  isShuttingDown : Bool
  heartbeatIntervalMs : Int
  heartbeatMissThreshold : Int
  nextPid : Nat
  nextId : Nat
  randTape : List Nat
deriving DecidableEq

/-- A fresh master (constructor with empty maps); interval/threshold from the
options, and an arbitrary tape of future `Math.random()` draws. -/
def initState (interval threshold : Int) (tape : List Nat) : MasterState :=
  { processes := [], groups := [], roundRobinCounters := [], activeRequests := [],
    groupQueues := [], processStats := [], completions := [], events := [],
    isShuttingDown := false, heartbeatIntervalMs := interval,
    heartbeatMissThreshold := threshold, nextPid := 0, nextId := 0,
    randTape := tape }

/-- `applyEma(previous, sample, alpha = 0.2)`. -/
def applyEma (previous sample : ℚ) : ℚ :=
  let alpha : ℚ := 1 / 5
  if previous = 0 then sample else alpha * sample + (1 - alpha) * previous

/-- `initializeProcessStats` (renamed: the source name is refused by this
development's naming scheme): the fresh stats record has neither a
`lastHeartbeatAt` nor a `status` field. -/
def initProcessStats (now : Int) (t : Target) (s : MasterState) : MasterState :=
  let fresh : ProcessStats :=
    { requestsHandled := 0, requestsActive := 0, averageResponseTime := 0,
      lastActivity := now, errors := 0, lastHeartbeatAt := none, status := none }
  { s with processStats := alSet t fresh s.processStats }

/-- `updateProcessStats`: rebuilds the stored record from exactly the fields
`requestsHandled`, `requestsActive` (clamped at 0 by `Math.max`),
`averageResponseTime` (EMA), `lastActivity := Date.now()` and `errors`; any
`lastHeartbeatAt`, `status` or `lastActivity` passed in `updates` is discarded
because the rebuilt record never copies them. -/
def updateProcessStats (now : Int) (target : Option Target) (u : StatsUpdate)
    (s : MasterState) : MasterState :=
  match target with
  | none => s
  | some t =>
    match alGet t s.processStats with
    | none => s
    | some stats =>
      let updated : ProcessStats :=
        { requestsHandled := stats.requestsHandled + u.requestsHandled.getD 0
          requestsActive := ((stats.requestsActive : Int) + u.requestsActive.getD 0).toNat
          averageResponseTime :=
            match u.averageResponseTime with
            | some sample => applyEma stats.averageResponseTime sample
            | none => stats.averageResponseTime
          lastActivity := now
          errors := stats.errors + u.errors.getD 0
          lastHeartbeatAt := none
          status := none }
      { s with processStats := alSet t updated s.processStats }

/-- `getTargetFromChild`: scans `processes` for the entry holding this child. -/
def getTargetFromChild (pid : Nat) (s : MasterState) : Option Target :=
  (s.processes.find? (fun p => decide (p.2.pid = pid))).map (·.1)

/-- Sum of `requests_active ?? 0` across a list of targets (the reduce in
`executeRequest` and `maybeDispatchQueued`). -/
def groupActiveSum (s : MasterState) (ts : List Target) : Nat :=
  (ts.map (fun t => ((alGet t s.processStats).map (·.requestsActive)).getD 0)).sum

/-- `getLeastBusyProcessIndex`: first index attaining the strictly smallest
`requestsActive` among targets that have stats (`minActiveRequests` starts at
`Infinity`, modelled by `none`). -/
def getLeastBusyProcessIndex (s : MasterState) (targets : List Target) : Nat :=
  (targets.enum.foldl
    (fun acc ti =>
      match alGet ti.2 s.processStats with
      | some st =>
        match acc.2 with
        | none => (ti.1, some st.requestsActive)
        | some m => if st.requestsActive < m then (ti.1, some st.requestsActive) else acc
      | none => acc)
    ((0 : Nat), (none : Option Nat))).1

/-- Result of `getChildForGroup` after the strategy choice: the chosen target's
process entry (or `undefined`), plus the updated state (round-robin counter
post-increment; `Math.random()` consumes the tape). -/
def pickTarget (s : MasterState) (g : GroupEntry) (idx : Nat) :
    Option (Target × ChildEntry) × MasterState :=
  match g.targets.get? idx with
  | none => (none, s)
  | some t => ((alGet t s.processes).map (fun e => (t, e)), s)

/-- `getChildForGroup`: throws when the group is missing or empty; otherwise
selects a target index by the configured strategy (default round-robin). -/
def getChildForGroup (s : MasterState) (gid : String) :
    Except PeepsyErr (Option (Target × ChildEntry) × MasterState) :=
  match alGet gid s.groups with
  | none =>
    Except.error ⟨ErrCode.peepsyGeneric,
      "Group ID \"" ++ gid ++ "\" has no associated targets"⟩
  | some g =>
    if g.targets.length = 0 then
      Except.error ⟨ErrCode.peepsyGeneric,
        "Group ID \"" ++ gid ++ "\" has no associated targets"⟩
    else
      match g.config.strategy.getD Strategy.roundRobin with
      | Strategy.roundRobin =>
        let counter := (alGet gid s.roundRobinCounters).getD 0
        let idx := counter % g.targets.length
        let s := { s with roundRobinCounters := alSet gid (counter + 1) s.roundRobinCounters }
        Except.ok (pickTarget s g idx)
      | Strategy.random =>
        let r := s.randTape.headD 0
        let s := { s with randTape := s.randTape.tail }
        Except.ok (pickTarget s g (r % g.targets.length))
      | Strategy.leastBusy =>
        Except.ok (pickTarget s g (getLeastBusyProcessIndex s g.targets))

/-- Observable outcome of one `executeRequest` call: parked on the group queue,
dispatched to a target (request id allocated), or synchronously rejected. -/
inductive ExecOutcome
  | queuedOut
  | dispatchedOut (t : Target) (id : Nat)
  | rejectedOut (e : PeepsyErr)
deriving DecidableEq

/-- Reject the caller's promise (the `reject(...)` calls of `executeRequest`). -/
def rejectCaller (caller : Nat) (e : PeepsyErr) (s : MasterState) :
    MasterState × ExecOutcome :=
  ({ s with completions := s.completions ++ [(caller, Outcome.rejectedOut e)] },
   ExecOutcome.rejectedOut e)

def notFoundErr (tog : String) : PeepsyErr :=
  ⟨ErrCode.peepsyNotFound, "No process found for target or group: " ++ tog⟩

/-- The dispatch tail of `executeRequest` once a process entry was resolved (or
not): reject *not found* when there is none; otherwise allocate the request id,
install the resolver in the active table, bump the target's `requestsActive` and
send the REQUEST envelope. -/
def dispatchTo (now : Int) (tog : String) (timeout : Int) (caller : Nat)
    (entry? : Option (Target × ChildEntry)) (s : MasterState) :
    MasterState × ExecOutcome :=
  match entry? with
  | none => rejectCaller caller (notFoundErr tog) s
  | some (t, e) =>
    let id := s.nextId
    let s := { s with nextId := id + 1 }
    let entry : ReqEntry :=
      { childPid := e.pid, origin := tog, timeoutMs := timeout,
        startTime := now, caller := caller }
    let s := { s with activeRequests := alSet id entry s.activeRequests }
    let u : StatsUpdate := { StatsUpdate.empty with requestsActive := some 1 }
    let s := updateProcessStats now (getTargetFromChild e.pid s) u s
    (s, ExecOutcome.dispatchedOut t id)

/-- `executeRequest`: group route (with the `maxConcurrency` queueing check)
or direct target route. -/
def executeRequest (now : Int) (action tog : String) (timeout : Int)
    (caller : Nat) (s : MasterState) : MasterState × ExecOutcome :=
  match alGet tog s.groups with
  | some g =>
    let atCap : Bool :=
      match g.config.maxConcurrency with
      | some m => decide (0 < m) && decide ((groupActiveSum s g.targets : Int) ≥ m)
      | none => false
    if atCap then
      let pend : Pending := { action := action, timeout := timeout, caller := caller }
      let q' := (alGet tog s.groupQueues).getD [] ++ [pend]
      ({ s with groupQueues := alSet tog q' s.groupQueues }, ExecOutcome.queuedOut)
    else
      match getChildForGroup s tog with
      | Except.error e => rejectCaller caller e s
      | Except.ok (entry?, s') => dispatchTo now tog timeout caller entry? s'
  | none => dispatchTo now tog timeout caller ((alGet tog s.processes).map (fun e => (tog, e))) s

/-- The while loop of `maybeDispatchQueued` for one group: while the queue is
non-empty and the group-wide active sum is below the cap, shift the head pending
request and re-issue it through `executeRequest` (standard strategy path). -/
def drainQueue (now : Int) (gid : String) : Nat → MasterState → MasterState
  | 0, s => s
  | fuel + 1, s =>
    match alGet gid s.groups with
    | none => s
    | some g =>
      match (alGet gid s.groupQueues).getD [] with
      | [] => s
      | next :: rest =>
        if (groupActiveSum s g.targets : Int) ≥ g.config.maxConcurrency.getD 0 then s
        else
          let s := { s with groupQueues := alSet gid rest s.groupQueues }
          let (s, _) := executeRequest now next.action gid next.timeout next.caller s
          drainQueue now gid fuel s

/-- `maybeDispatchQueued(targetFreed)`: for every group containing the freed
target whose queue is non-empty and whose cap is positive, drain the queue. -/
def maybeDispatchQueued (now : Int) (freed : Target) (s : MasterState) : MasterState :=
  s.groups.foldl
    (fun acc p =>
      if freed ∈ p.2.targets then
        let queue := (alGet p.1 acc.groupQueues).getD []
        if queue.length = 0 ∨ p.2.config.maxConcurrency.getD 0 ≤ 0 then acc
        else drainQueue now p.1 queue.length acc
      else acc)
    s

/-- A RESPONSE envelope received from a child. -/
structure RespEnv where
  id : Nat
  status : Int
  error : Option String
  errorPayloadMessage : Option String
deriving DecidableEq

/-- The RESPONSE branch of the master's per-child message handler: map
`error ?? errorPayload?.message` into the flat `error` field, run the stored
resolver (stats, resolve/reject), delete the entry, decrement the handler's
target `requestsActive`, then try the group queues. -/
def handleResponse (now : Int) (fromTarget : Target) (env : RespEnv)
    (s : MasterState) : MasterState :=
  match alGet env.id s.activeRequests with
  | none => s
  | some entry =>
    let errStr : Option String := env.error <|> env.errorPayloadMessage
    let tgt := getTargetFromChild entry.childPid s
    let u1 : StatsUpdate :=
      { StatsUpdate.empty with
          requestsHandled := some 1
          averageResponseTime := some ((now - entry.startTime : Int) : ℚ) }
    let s := updateProcessStats now tgt u1 s
    let s :=
      if env.status ≥ 400 then
        let u2 : StatsUpdate := { StatsUpdate.empty with errors := some 1 }
        let s := updateProcessStats now tgt u2 s
        let err : PeepsyErr :=
          ⟨ErrCode.peepsyGeneric,
           errStr.getD ("Request failed with status " ++ toString env.status)⟩
        { s with completions := s.completions ++ [(entry.caller, Outcome.rejectedOut err)] }
      else
        { s with completions := s.completions ++ [(entry.caller, Outcome.resolvedOut env.status)] }
    let s := { s with activeRequests := alErase env.id s.activeRequests }
    let u3 : StatsUpdate := { StatsUpdate.empty with requestsActive := some (-1) }
    let s := updateProcessStats now (some fromTarget) u3 s
    maybeDispatchQueued now fromTarget s

/-- The HEARTBEAT branch of the message handler. -/
def handleHeartbeat (now : Int) (t : Target) (ts : Int) (s : MasterState) : MasterState :=
  let u : StatsUpdate :=
    { StatsUpdate.empty with lastHeartbeatAt := some ts, lastActivity := some ts }
  updateProcessStats now (some t) u s

/-- The per-request timer callback in `executeRequest`: delete the active entry,
bump the target's `errors`, reject with the timeout error.  (The target's
`requestsActive` is not touched.) -/
def timeoutFire (now : Int) (id : Nat) (s : MasterState) : MasterState :=
  match alGet id s.activeRequests with
  | none => s
  | some entry =>
    let s := { s with activeRequests := alErase id s.activeRequests }
    let u : StatsUpdate := { StatsUpdate.empty with errors := some 1 }
    let s := updateProcessStats now (getTargetFromChild entry.childPid s) u s
    let err : PeepsyErr :=
      ⟨ErrCode.peepsyTimeout,
       "Request timed out after " ++ toString entry.timeoutMs
         ++ "ms for target: " ++ entry.origin⟩
    { s with completions := s.completions ++ [(entry.caller, Outcome.rejectedOut err)] }

/-- `addToGroup`: creates the group (empty target list, empty config, cursor 0)
when missing, then appends the target if not already a member. -/
def addToGroup (t : Target) (gid : String) (s : MasterState) : MasterState :=
  let emptyGroup : GroupEntry :=
    { targets := [],
      config := { strategy := none, maxConcurrency := none, disableAutoRestart := none } }
  let s :=
    if (alGet gid s.groups).isSome then s
    else
      { s with groups := alSet gid emptyGroup s.groups,
               roundRobinCounters := alSet gid 0 s.roundRobinCounters }
  match alGet gid s.groups with
  | none => s
  | some g =>
    if t ∈ g.targets then s
    else { s with groups := alSet gid { g with targets := g.targets ++ [t] } s.groups }

/-- `spawnChild`: refuses during shutdown or when the target exists; otherwise
forks (fresh pid), records the entry, initializes stats, joins the group and
emits `spawn`. -/
def spawnChild (now : Int) (t : Target) (script : String) (mode : ProcessMode)
    (groupId : Option String) (s : MasterState) : MasterState :=
  if s.isShuttingDown then s
  else if (alGet t s.processes).isSome then s
  else
    let pid := s.nextPid
    let s := { s with nextPid := pid + 1 }
    let entry : ChildEntry :=
      { pid := pid, mode := mode, scriptPath := script, groupId := groupId }
    let s := { s with processes := alSet t entry s.processes }
    let s := initProcessStats now t s
    let s :=
      match groupId with
      | some gid => addToGroup t gid s
      | none => s
    { s with events := s.events ++ [Emitted.spawnEv t] }

/-- The spread-merge `{...group.config, ...config}` of `configureGroup`. -/
def mergeConfig (old new : GroupConfig) : GroupConfig :=
  { strategy := new.strategy <|> old.strategy
    maxConcurrency := new.maxConcurrency <|> old.maxConcurrency
    disableAutoRestart := new.disableAutoRestart <|> old.disableAutoRestart }

/-- `configureGroup`: creates an empty group with the given config, or merges the
config into the existing group (members unchanged). -/
def configureGroup (gid : String) (cfg : GroupConfig) (s : MasterState) : MasterState :=
  match alGet gid s.groups with
  | none =>
    { s with groups := alSet gid { targets := [], config := cfg } s.groups
             roundRobinCounters := alSet gid 0 s.roundRobinCounters }
  | some g =>
    { s with groups := alSet gid { g with config := mergeConfig g.config cfg } s.groups }

/-- `cleanupProcess`: drops the process entry and its stats, removes the target
from every group, and deletes groups (and their cursors) left empty.  The group
queues are not touched. -/
def cleanupProcess (t : Target) (s : MasterState) : MasterState :=
  let deleted : List String :=
    s.groups.filterMap
      (fun p => if t ∈ p.2.targets ∧ p.2.targets.erase t = [] then some p.1 else none)
  { s with
    processes := alErase t s.processes
    processStats := alErase t s.processStats
    groups := s.groups.filterMap
      (fun p =>
        if t ∈ p.2.targets then
          let ts := p.2.targets.erase t
          if ts = [] then none else some (p.1, { p.2 with targets := ts })
        else some p)
    roundRobinCounters := s.roundRobinCounters.filter (fun c => c.1 ∉ deleted) }

/-- The child `exit` handler: clean up the records; when the master is not
shutting down and auto-restart is not disabled (entry- or group-level), emit
`auto-restart` and respawn with the original script/mode/group/options.
In-flight requests are not touched. -/
def childExit (now : Int) (t : Target) (s : MasterState) : MasterState :=
  let prev := alGet t s.processes
  let s := cleanupProcess t s
  match prev with
  | none => s
  | some e =>
    if s.isShuttingDown then s
    else
      let groupCfg := e.groupId.bind (fun gid => (alGet gid s.groups).map (·.config))
      let disable := (groupCfg.bind (·.disableAutoRestart)).getD false
      if disable then s
      else
        let s := { s with events := s.events ++ [Emitted.autoRestartEv t] }
        spawnChild now t e.scriptPath e.mode e.groupId s

/-- One tick of the health monitor: for each worker compute
`last = lastHeartbeatAt ?? lastActivity`; skip when falsy; when
`now - last > heartbeatIntervalMs * heartbeatMissThreshold`, pass
`status: 'unhealthy'` to `updateProcessStats`, kill the child (its exit arrives
as a later event) and emit `heartbeat-missed` (also emitted when auto-restart is
disabled); otherwise pass `status: 'healthy'`. -/
def monitorTick (now : Int) (s : MasterState) : MasterState :=
  s.processStats.foldl
    (fun acc p =>
      let last := p.2.lastHeartbeatAt.getD p.2.lastActivity
      if last = 0 then acc
      else if now - last > acc.heartbeatIntervalMs * acc.heartbeatMissThreshold then
        let uu : StatsUpdate := { StatsUpdate.empty with status := some HealthStatus.unhealthy }
        let acc := updateProcessStats now (some p.1) uu acc
        { acc with events := acc.events ++ [Emitted.heartbeatMissed p.1 now] }
      else
        let uh : StatsUpdate := { StatsUpdate.empty with status := some HealthStatus.healthy }
        updateProcessStats now (some p.1) uh acc)
    s

/-- `getUnhealthyProcesses`: targets whose stats have `status === 'unhealthy'`. -/
def getUnhealthyProcesses (s : MasterState) : List Target :=
  s.processStats.filterMap
    (fun p => if p.2.status = some HealthStatus.unhealthy then some p.1 else none)

/-- The retry loop of `sendRequest`, in the case where each attempt settles
synchronously (which is exactly what happens when the routing lookup fails):
run `executeRequest` up to `maxRetries + 1` times, remembering the last error;
a queued or dispatched attempt leaves the loop (its settlement is asynchronous).
Returns the final state, the number of `executeRequest` attempts made, and the
error thrown after the loop (if every attempt rejected synchronously). -/
def sendLoop (now : Int) (action tog : String) (timeout : Int) (caller : Nat) :
    Nat → MasterState → Option PeepsyErr → Nat → MasterState × Nat × Option PeepsyErr
  | 0, s, lastErr, made => (s, made, lastErr)
  | n + 1, s, _, made =>
    match executeRequest now action tog timeout caller s with
    | (s', ExecOutcome.rejectedOut e) => sendLoop now action tog timeout caller n s' (some e) (made + 1)
    | (s', _) => (s', made + 1, none)

def sendRequestSync (now : Int) (action tog : String) (timeout : Int)
    (caller : Nat) (maxRetries : Nat) (s : MasterState) :
    MasterState × Nat × Option PeepsyErr :=
  sendLoop now action tog timeout caller (maxRetries + 1) s none 0

/-- Reachability: every state the master can be driven into by its event
handlers, from a fresh instance. -/
inductive Reachable : MasterState → Prop
  | init (interval threshold : Int) (tape : List Nat) :
      Reachable (initState interval threshold tape)
  | spawn (now : Int) (t script : String) (mode : ProcessMode)
      (gid : Option String) {s : MasterState} :
      Reachable s → Reachable (spawnChild now t script mode gid s)
  | configure (gid : String) (cfg : GroupConfig) {s : MasterState} :
      Reachable s → Reachable (configureGroup gid cfg s)
  | dispatch (now : Int) (action tog : String) (timeout : Int) (caller : Nat)
      {s : MasterState} :
      Reachable s → Reachable (executeRequest now action tog timeout caller s).1
  | response (now : Int) (fromTarget : Target) (env : RespEnv) {s : MasterState} :
      Reachable s → Reachable (handleResponse now fromTarget env s)
  | heartbeat (now : Int) (t : Target) (ts : Int) {s : MasterState} :
      Reachable s → Reachable (handleHeartbeat now t ts s)
  | timeoutF (now : Int) (id : Nat) {s : MasterState} :
      Reachable s → Reachable (timeoutFire now id s)
  | tick (now : Int) {s : MasterState} :
      Reachable s → Reachable (monitorTick now s)
  | exit (now : Int) (t : Target) {s : MasterState} :
      Reachable s → Reachable (childExit now t s)
  | shutdownChildDone (now : Int) (t : Target) {s : MasterState} :
      Reachable s → Reachable (cleanupProcess t (childExit now t s))
  | beginShutdown {s : MasterState} :
      Reachable s → Reachable { s with isShuttingDown := true }

/-! ### Association-list lemmas -/

theorem alGet_alSet_self [DecidableEq κ] (k : κ) (v : β) (l : List (κ × β)) :
    alGet k (alSet k v l) = some v := by
  induction l with
  | nil => simp [alGet, alSet]
  | cons p rest ih =>
    by_cases h : p.1 = k
    · simp [alGet, alSet, h]
    · simp [alGet, alSet, h, ih]

theorem alGet_alSet_ne [DecidableEq κ] (k k' : κ) (v : β) (l : List (κ × β))
    (h : k ≠ k') : alGet k' (alSet k v l) = alGet k' l := by
  induction l with
  | nil => simp [alGet, alSet, h]
  | cons p rest ih =>
    by_cases hp : p.1 = k
    · simp [alGet, alSet, hp, h]
    · simp only [alSet, if_neg hp]
      by_cases hp' : p.1 = k'
      · simp [alGet, hp']
      · simp [alGet, hp', ih]

theorem alGet_alErase [DecidableEq κ] (k k' : κ) (l : List (κ × β)) :
    alGet k' (alErase k l) = if k' = k then none else alGet k' l := by
  induction l with
  | nil => simp [alGet, alErase]
  | cons p rest ih =>
    by_cases hp : p.1 = k
    · by_cases hk : k' = k
      · subst hk
        simpa [alErase, hp] using ih
      · have hpk : p.1 ≠ k' := by
          rw [hp]
          exact fun h => hk h.symm
        have hk' : ¬ (k = k') := fun h => hk h.symm
        simp [alErase, alGet, hp, hk, hpk, hk', ih]
    · by_cases hpk : p.1 = k'
      · have hk : ¬ (k' = k) := by
          rw [← hpk]
          exact fun h => hp h
        simp [alErase, alGet, hp, hpk, hk]
      · simp [alErase, alGet, hp, hpk, ih]

theorem alSet_of_absent [DecidableEq κ] (k : κ) (v : β) (l : List (κ × β))
    (h : alGet k l = none) : alSet k v l = l ++ [(k, v)] := by
  induction l with
  | nil => simp [alSet]
  | cons p rest ih =>
    by_cases hp : p.1 = k
    · simp [alGet, hp] at h
    · simp only [alGet, if_neg hp] at h
      simp [alSet, hp, ih h]

theorem alGet_mem [DecidableEq κ] (k : κ) (v : β) (l : List (κ × β))
    (h : alGet k l = some v) : (k, v) ∈ l := by
  induction l with
  | nil => simp [alGet] at h
  | cons p rest ih =>
    by_cases hp : p.1 = k
    · simp only [alGet, if_pos hp] at h
      obtain ⟨p1, p2⟩ := p
      simp only at hp
      have h2 : p2 = v := Option.some.inj h
      rw [← hp, ← h2]
      exact List.mem_cons_self _ _
    · simp only [alGet, if_neg hp] at h
      exact List.mem_cons_of_mem _ (ih h)

theorem mem_alSet [DecidableEq κ] (k : κ) (v : β) (l : List (κ × β)) (p : κ × β)
    (h : p ∈ alSet k v l) : p = (k, v) ∨ p ∈ l := by
  induction l with
  | nil => simpa [alSet] using h
  | cons q rest ih =>
    by_cases hq : q.1 = k
    · simp only [alSet, if_pos hq] at h
      rcases List.mem_cons.mp h with h | h
      · exact Or.inl h
      · exact Or.inr (List.mem_cons_of_mem _ h)
    · simp only [alSet, if_neg hq] at h
      rcases List.mem_cons.mp h with h | h
      · exact Or.inr (List.mem_cons.mpr (Or.inl h))
      · rcases ih h with h | h
        · exact Or.inl h
        · exact Or.inr (List.mem_cons_of_mem _ h)

theorem keys_nodup_alSet [DecidableEq κ] (k : κ) (v : β) (l : List (κ × β))
    (h : (l.map (·.1)).Nodup) : ((alSet k v l).map (·.1)).Nodup := by
  induction l with
  | nil => simp [alSet]
  | cons p rest ih =>
    simp only [List.map_cons, List.nodup_cons] at h
    by_cases hp : p.1 = k
    · simp only [alSet, if_pos hp, List.map_cons, List.nodup_cons]
      refine ⟨?_, h.2⟩
      rw [← hp]
      exact h.1
    · simp only [alSet, if_neg hp, List.map_cons, List.nodup_cons]
      refine ⟨?_, ih h.2⟩
      intro hmem
      have : ∀ q ∈ alSet k v rest, q.1 = k ∨ q.1 ∈ rest.map (·.1) := by
        intro q hq
        rcases mem_alSet k v rest q hq with h | h
        · left; rw [h]
        · right; exact List.mem_map_of_mem _ h
      rcases List.mem_map.mp hmem with ⟨q, hq, hq1⟩
      rcases this q hq with h' | h'
      · exact hp (hq1 ▸ h')
      · exact h.1 (hq1 ▸ h')

theorem nodupKeys_eq [DecidableEq κ] (l : List (κ × β)) (k : κ) (a b : β)
    (h : (l.map (·.1)).Nodup) (ha : (k, a) ∈ l) (hb : (k, b) ∈ l) : a = b := by
  induction l with
  | nil => simp at ha
  | cons p rest ih =>
    simp only [List.map_cons, List.nodup_cons] at h
    rcases List.mem_cons.mp ha with ha' | ha' <;> rcases List.mem_cons.mp hb with hb' | hb'
    · rw [← ha'] at hb'
      exact (congrArg Prod.snd hb').symm
    · exfalso
      have hk : p.1 = k := by rw [← ha']
      exact h.1 (by rw [hk]; exact List.mem_map_of_mem _ hb')
    · exfalso
      have hk : p.1 = k := by rw [← hb']
      exact h.1 (by rw [hk]; exact List.mem_map_of_mem _ ha')
    · exact ih h.2 ha' hb'

/-! ### Frame lemmas: state components each event leaves untouched -/

/-- Dispatch-style frame: `executeRequest`, queue draining and response handling
never touch the process table, the group table, the event log, the shutdown
flag, the configuration, or the pid counter. -/
def FrameD (s s' : MasterState) : Prop :=
  s'.processes = s.processes ∧ s'.groups = s.groups ∧ s'.events = s.events ∧
  s'.isShuttingDown = s.isShuttingDown ∧
  s'.heartbeatIntervalMs = s.heartbeatIntervalMs ∧
  s'.heartbeatMissThreshold = s.heartbeatMissThreshold ∧
  s'.nextPid = s.nextPid

theorem frameD_refl (s : MasterState) : FrameD s s :=
  ⟨rfl, rfl, rfl, rfl, rfl, rfl, rfl⟩

theorem frameD_trans {s1 s2 s3 : MasterState} (h1 : FrameD s1 s2) (h2 : FrameD s2 s3) :
    FrameD s1 s3 := by
  obtain ⟨a1, b1, c1, d1, e1, f1, g1⟩ := h1
  obtain ⟨a2, b2, c2, d2, e2, f2, g2⟩ := h2
  exact ⟨a2.trans a1, b2.trans b1, c2.trans c1, d2.trans d1, e2.trans e1,
         f2.trans f1, g2.trans g1⟩

theorem updateProcessStats_frameD (now : Int) (t : Option Target) (u : StatsUpdate)
    (s : MasterState) : FrameD s (updateProcessStats now t u s) := by
  unfold updateProcessStats
  repeat' split
  all_goals exact ⟨rfl, rfl, rfl, rfl, rfl, rfl, rfl⟩

theorem dispatchTo_frameD (now : Int) (tog : String) (timeout : Int) (caller : Nat)
    (entry? : Option (Target × ChildEntry)) (s : MasterState) :
    FrameD s (dispatchTo now tog timeout caller entry? s).1 := by
  unfold dispatchTo rejectCaller updateProcessStats
  dsimp only
  repeat' split
  all_goals exact ⟨rfl, rfl, rfl, rfl, rfl, rfl, rfl⟩

theorem getChildForGroup_frameD (s : MasterState) (gid : String)
    (res : Option (Target × ChildEntry) × MasterState)
    (h : getChildForGroup s gid = Except.ok res) : FrameD s res.2 := by
  unfold getChildForGroup pickTarget at h
  repeat' split at h
  all_goals first
    | exact Except.noConfusion h
    | (injection h with h'
       subst h'
       repeat' split
       all_goals exact ⟨rfl, rfl, rfl, rfl, rfl, rfl, rfl⟩)

theorem executeRequest_frameD (now : Int) (action tog : String) (timeout : Int)
    (caller : Nat) (s : MasterState) :
    FrameD s (executeRequest now action tog timeout caller s).1 := by
  unfold executeRequest
  cases hg : alGet tog s.groups with
  | none => exact dispatchTo_frameD now tog timeout caller _ s
  | some g =>
    dsimp only
    split
    · exact ⟨rfl, rfl, rfl, rfl, rfl, rfl, rfl⟩
    · cases hc : getChildForGroup s tog with
      | error e => exact ⟨rfl, rfl, rfl, rfl, rfl, rfl, rfl⟩
      | ok res =>
        show FrameD s (dispatchTo now tog timeout caller res.1 res.2).1
        exact frameD_trans (getChildForGroup_frameD s tog res hc)
          (dispatchTo_frameD now tog timeout caller res.1 res.2)

theorem drainQueue_frameD (now : Int) (gid : String) (fuel : Nat) (s : MasterState) :
    FrameD s (drainQueue now gid fuel s) := by
  induction fuel generalizing s with
  | zero => exact frameD_refl s
  | succ fuel ih =>
    unfold drainQueue
    repeat' split
    · exact frameD_refl _
    · exact frameD_refl _
    · exact frameD_refl _
    · rename_i g hg rest next hq hcap
      refine frameD_trans ?_ (ih _)
      refine @frameD_trans _ { s with groupQueues := alSet gid next s.groupQueues } _ ?_ ?_
      · exact ⟨rfl, rfl, rfl, rfl, rfl, rfl, rfl⟩
      · exact executeRequest_frameD _ _ _ _ _ _

theorem maybeDispatchQueued_frameD (now : Int) (freed : Target) (s : MasterState) :
    FrameD s (maybeDispatchQueued now freed s) := by
  unfold maybeDispatchQueued
  generalize s.groups = l
  induction l generalizing s with
  | nil => exact frameD_refl s
  | cons p rest ih =>
    simp only [List.foldl_cons]
    refine @frameD_trans _
      (if freed ∈ p.2.targets then
        let queue := (alGet p.1 s.groupQueues).getD []
        if queue.length = 0 ∨ p.2.config.maxConcurrency.getD 0 ≤ 0 then s
        else drainQueue now p.1 queue.length s
      else s) _ ?_ (ih _)
    dsimp only
    repeat' split
    all_goals first
      | exact frameD_refl _
      | exact drainQueue_frameD _ _ _ _

@[simp] theorem updateProcessStats_processes (now : Int) (t : Option Target)
    (u : StatsUpdate) (s : MasterState) :
    (updateProcessStats now t u s).processes = s.processes :=
  (updateProcessStats_frameD now t u s).1

@[simp] theorem updateProcessStats_groups (now : Int) (t : Option Target)
    (u : StatsUpdate) (s : MasterState) :
    (updateProcessStats now t u s).groups = s.groups :=
  (updateProcessStats_frameD now t u s).2.1

@[simp] theorem updateProcessStats_events (now : Int) (t : Option Target)
    (u : StatsUpdate) (s : MasterState) :
    (updateProcessStats now t u s).events = s.events :=
  (updateProcessStats_frameD now t u s).2.2.1

@[simp] theorem updateProcessStats_isShuttingDown (now : Int) (t : Option Target)
    (u : StatsUpdate) (s : MasterState) :
    (updateProcessStats now t u s).isShuttingDown = s.isShuttingDown :=
  (updateProcessStats_frameD now t u s).2.2.2.1

@[simp] theorem updateProcessStats_interval (now : Int) (t : Option Target)
    (u : StatsUpdate) (s : MasterState) :
    (updateProcessStats now t u s).heartbeatIntervalMs = s.heartbeatIntervalMs :=
  (updateProcessStats_frameD now t u s).2.2.2.2.1

@[simp] theorem updateProcessStats_threshold (now : Int) (t : Option Target)
    (u : StatsUpdate) (s : MasterState) :
    (updateProcessStats now t u s).heartbeatMissThreshold = s.heartbeatMissThreshold :=
  (updateProcessStats_frameD now t u s).2.2.2.2.2.1

@[simp] theorem updateProcessStats_nextPid (now : Int) (t : Option Target)
    (u : StatsUpdate) (s : MasterState) :
    (updateProcessStats now t u s).nextPid = s.nextPid :=
  (updateProcessStats_frameD now t u s).2.2.2.2.2.2

@[simp] theorem maybeDispatchQueued_processes (now : Int) (freed : Target)
    (s : MasterState) : (maybeDispatchQueued now freed s).processes = s.processes :=
  (maybeDispatchQueued_frameD now freed s).1

@[simp] theorem maybeDispatchQueued_groups (now : Int) (freed : Target)
    (s : MasterState) : (maybeDispatchQueued now freed s).groups = s.groups :=
  (maybeDispatchQueued_frameD now freed s).2.1

@[simp] theorem maybeDispatchQueued_events (now : Int) (freed : Target)
    (s : MasterState) : (maybeDispatchQueued now freed s).events = s.events :=
  (maybeDispatchQueued_frameD now freed s).2.2.1

@[simp] theorem maybeDispatchQueued_isShuttingDown (now : Int) (freed : Target)
    (s : MasterState) :
    (maybeDispatchQueued now freed s).isShuttingDown = s.isShuttingDown :=
  (maybeDispatchQueued_frameD now freed s).2.2.2.1

@[simp] theorem maybeDispatchQueued_interval (now : Int) (freed : Target)
    (s : MasterState) :
    (maybeDispatchQueued now freed s).heartbeatIntervalMs = s.heartbeatIntervalMs :=
  (maybeDispatchQueued_frameD now freed s).2.2.2.2.1

@[simp] theorem maybeDispatchQueued_threshold (now : Int) (freed : Target)
    (s : MasterState) :
    (maybeDispatchQueued now freed s).heartbeatMissThreshold = s.heartbeatMissThreshold :=
  (maybeDispatchQueued_frameD now freed s).2.2.2.2.2.1

@[simp] theorem maybeDispatchQueued_nextPid (now : Int) (freed : Target)
    (s : MasterState) : (maybeDispatchQueued now freed s).nextPid = s.nextPid :=
  (maybeDispatchQueued_frameD now freed s).2.2.2.2.2.2

theorem updateProcessStats_only_stats (now : Int) (t : Option Target)
    (u : StatsUpdate) (s : MasterState) :
    (updateProcessStats now t u s).completions = s.completions
      ∧ (updateProcessStats now t u s).activeRequests = s.activeRequests
      ∧ (updateProcessStats now t u s).groupQueues = s.groupQueues
      ∧ (updateProcessStats now t u s).roundRobinCounters = s.roundRobinCounters
      ∧ (updateProcessStats now t u s).nextId = s.nextId
      ∧ (updateProcessStats now t u s).randTape = s.randTape := by
  unfold updateProcessStats
  dsimp only
  repeat' split
  all_goals exact ⟨rfl, rfl, rfl, rfl, rfl, rfl⟩

@[simp] theorem updateProcessStats_completions (now : Int) (t : Option Target)
    (u : StatsUpdate) (s : MasterState) :
    (updateProcessStats now t u s).completions = s.completions :=
  (updateProcessStats_only_stats now t u s).1

@[simp] theorem updateProcessStats_activeRequests (now : Int) (t : Option Target)
    (u : StatsUpdate) (s : MasterState) :
    (updateProcessStats now t u s).activeRequests = s.activeRequests :=
  (updateProcessStats_only_stats now t u s).2.1

@[simp] theorem updateProcessStats_groupQueues (now : Int) (t : Option Target)
    (u : StatsUpdate) (s : MasterState) :
    (updateProcessStats now t u s).groupQueues = s.groupQueues :=
  (updateProcessStats_only_stats now t u s).2.2.1

@[simp] theorem updateProcessStats_counters (now : Int) (t : Option Target)
    (u : StatsUpdate) (s : MasterState) :
    (updateProcessStats now t u s).roundRobinCounters = s.roundRobinCounters :=
  (updateProcessStats_only_stats now t u s).2.2.2.1

@[simp] theorem updateProcessStats_nextId (now : Int) (t : Option Target)
    (u : StatsUpdate) (s : MasterState) :
    (updateProcessStats now t u s).nextId = s.nextId :=
  (updateProcessStats_only_stats now t u s).2.2.2.2.1

@[simp] theorem updateProcessStats_randTape (now : Int) (t : Option Target)
    (u : StatsUpdate) (s : MasterState) :
    (updateProcessStats now t u s).randTape = s.randTape :=
  (updateProcessStats_only_stats now t u s).2.2.2.2.2

theorem handleResponse_frameD (now : Int) (fromTarget : Target) (env : RespEnv)
    (s : MasterState) : FrameD s (handleResponse now fromTarget env s) := by
  unfold handleResponse
  cases halg : alGet env.id s.activeRequests with
  | none => exact frameD_refl s
  | some entry =>
    dsimp only
    refine ⟨?_, ?_, ?_, ?_, ?_, ?_, ?_⟩ <;>
      simp [apply_ite]

theorem timeoutFire_frame (now : Int) (id : Nat) (s : MasterState) :
    (timeoutFire now id s).processes = s.processes
      ∧ (timeoutFire now id s).groups = s.groups
      ∧ (timeoutFire now id s).groupQueues = s.groupQueues
      ∧ (timeoutFire now id s).events = s.events := by
  unfold timeoutFire updateProcessStats
  dsimp only
  repeat' split
  all_goals exact ⟨rfl, rfl, rfl, rfl⟩

theorem childExit_frame (now : Int) (t : Target) (s : MasterState) :
    (childExit now t s).activeRequests = s.activeRequests
      ∧ (childExit now t s).completions = s.completions
      ∧ (childExit now t s).groupQueues = s.groupQueues
      ∧ (childExit now t s).nextId = s.nextId := by
  unfold childExit cleanupProcess spawnChild initProcessStats addToGroup
  dsimp only
  repeat' split
  all_goals exact ⟨rfl, rfl, rfl, rfl⟩

/-! ### Completion-log monotonicity: events only append to `completions` -/

theorem executeRequest_completions_mono (now : Int) (action tog : String)
    (timeout : Int) (caller : Nat) (s : MasterState) :
    ∃ ext, (executeRequest now action tog timeout caller s).1.completions
      = s.completions ++ ext := by
  have hdisp : ∀ (entry? : Option (Target × ChildEntry)) (s' : MasterState),
      ∃ ext, (dispatchTo now tog timeout caller entry? s').1.completions
        = s'.completions ++ ext := by
    intro entry? s'
    cases entry? with
    | none => exact ⟨_, rfl⟩
    | some te =>
      obtain ⟨t, e⟩ := te
      refine ⟨[], ?_⟩
      show (updateProcessStats _ _ _ _).completions = _
      simp
  unfold executeRequest
  cases hg : alGet tog s.groups with
  | none => exact hdisp _ s
  | some g =>
    dsimp only
    split
    · exact ⟨[], by simp⟩
    · cases hc : getChildForGroup s tog with
      | error e => exact ⟨_, rfl⟩
      | ok res =>
        show ∃ ext, (dispatchTo now tog timeout caller res.1 res.2).1.completions = _
        obtain ⟨ext, hext⟩ := hdisp res.1 res.2
        rw [hext]
        have : res.2.completions = s.completions := by
          unfold getChildForGroup pickTarget at hc
          repeat' split at hc
          all_goals first
            | exact Except.noConfusion hc
            | (injection hc with h'
               subst h'
               repeat' split
               all_goals rfl)
        rw [this]
        exact ⟨ext, rfl⟩

theorem drainQueue_completions_mono (now : Int) (gid : String) (fuel : Nat)
    (s : MasterState) :
    ∃ ext, (drainQueue now gid fuel s).completions = s.completions ++ ext := by
  induction fuel generalizing s with
  | zero => exact ⟨[], by simp [drainQueue]⟩
  | succ fuel ih =>
    unfold drainQueue
    repeat' split
    · exact ⟨[], by simp⟩
    · exact ⟨[], by simp⟩
    · exact ⟨[], by simp⟩
    · rename_i g hg next rest hq hcap
      obtain ⟨e1, h1⟩ := executeRequest_completions_mono now next.action gid
        next.timeout next.caller { s with groupQueues := alSet gid rest s.groupQueues }
      obtain ⟨e2, h2⟩ := ih (executeRequest now next.action gid next.timeout next.caller
        { s with groupQueues := alSet gid rest s.groupQueues }).1
      refine ⟨e1 ++ e2, ?_⟩
      show (drainQueue now gid fuel (executeRequest now next.action gid next.timeout
        next.caller { s with groupQueues := alSet gid rest s.groupQueues }).1).completions
        = s.completions ++ (e1 ++ e2)
      rw [h2, h1]
      simp

theorem maybeDispatchQueued_completions_mono (now : Int) (freed : Target)
    (s : MasterState) :
    ∃ ext, (maybeDispatchQueued now freed s).completions = s.completions ++ ext := by
  unfold maybeDispatchQueued
  generalize s.groups = l
  induction l generalizing s with
  | nil => exact ⟨[], by simp⟩
  | cons p rest ih =>
    simp only [List.foldl_cons]
    have hstep : ∃ ext,
        (if freed ∈ p.2.targets then
          let queue := (alGet p.1 s.groupQueues).getD []
          if queue.length = 0 ∨ p.2.config.maxConcurrency.getD 0 ≤ 0 then s
          else drainQueue now p.1 queue.length s
        else s).completions = s.completions ++ ext := by
      dsimp only
      repeat' split
      all_goals first
        | exact drainQueue_completions_mono now p.1 _ s
        | exact ⟨[], by simp⟩
    obtain ⟨e1, h1⟩ := hstep
    obtain ⟨e2, h2⟩ := ih _
    refine ⟨e1 ++ e2, ?_⟩
    rw [h2, h1]
    simp

/-- Rewritable form of the completion-log monotonicity of the group-queue
drain. -/
theorem maybeDispatchQueued_completions_eq (now : Int) (freed : Target)
    (s : MasterState) :
    (maybeDispatchQueued now freed s).completions
      = s.completions
          ++ (maybeDispatchQueued now freed s).completions.drop s.completions.length := by
  obtain ⟨ext, hext⟩ := maybeDispatchQueued_completions_mono now freed s
  rw [hext]
  simp

/-! ### Targeted behaviour lemmas -/

theorem getTargetFromChild_congr (pid : Nat) (s s' : MasterState)
    (h : s'.processes = s.processes) :
    getTargetFromChild pid s' = getTargetFromChild pid s := by
  unfold getTargetFromChild
  rw [h]

/-- The timer callback at a live entry: the caller is rejected with the typed
timeout error (code `PEEPSY_TIMEOUT`). -/
theorem timeoutFire_rejects (now : Int) (id : Nat) (s : MasterState)
    (entry : ReqEntry) (h : alGet id s.activeRequests = some entry) :
    (timeoutFire now id s).completions
      = s.completions ++ [(entry.caller, Outcome.rejectedOut
          ⟨ErrCode.peepsyTimeout,
           "Request timed out after " ++ toString entry.timeoutMs
             ++ "ms for target: " ++ entry.origin⟩)] := by
  unfold timeoutFire
  rw [h]
  dsimp only
  simp

/-- The timer callback removes the entry from the active table. -/
theorem timeoutFire_removes (now : Int) (id : Nat) (s : MasterState)
    (entry : ReqEntry) (h : alGet id s.activeRequests = some entry) :
    alGet id (timeoutFire now id s).activeRequests = none := by
  unfold timeoutFire
  rw [h]
  dsimp only
  simp [alGet_alErase]

/-- A RESPONSE whose id has no active entry is dropped without any effect. -/
theorem handleResponse_noop (now : Int) (fromTarget : Target) (env : RespEnv)
    (s : MasterState) (h : alGet env.id s.activeRequests = none) :
    handleResponse now fromTarget env s = s := by
  unfold handleResponse
  rw [h]

/-! ### Shared concrete example states -/

/-- A master with group `g` configured `{round-robin, maxConcurrency: 1}` and one
member `t1` (pid 0). -/
def exSpawned : MasterState :=
  spawnChild 10 "t1" "worker.js" ProcessMode.sequential (some "g")
    (configureGroup "g"
      { strategy := some Strategy.roundRobin, maxConcurrency := some 1,
        disableAutoRestart := none }
      (initState 2000 3 []))

/-- `exSpawned` after one group send (caller 1): request id 0 in flight on `t1`. -/
def exInFlight : MasterState :=
  (executeRequest 11 "echo" "g" 5000 1 exSpawned).1

/-- The active-table entry created by the send in `exInFlight`. -/
def exEntry : ReqEntry :=
  { childPid := 0, origin := "g", timeoutMs := 5000, startTime := 11, caller := 1 }

/-! ### Claim C2 (worker exit and in-flight requests) -/

/-- Claim C2 as stated is false on the code: with request id 0 in flight on `t1`,
the `exit` handler cleans up the records but rejects nothing — the entry is still
in the active table afterwards and the completion log stays empty, so no in-flight
entry is rejected with the `PEEPSY_PROCESS` error. -/
theorem peepsy_C2_counterexample :
    (alGet 0 (childExit 20 "t1" exInFlight).activeRequests).isSome = true
      ∧ (childExit 20 "t1" exInFlight).completions = [] := by
  exact ⟨by decide, by decide⟩

/-- Claim C2 amended: when a worker exits while requests to it are in flight, the
master's exit handler leaves every in-flight entry untouched (no rejection of any
kind is issued at exit time, in particular none with the process error); each such
entry is eventually rejected by its own timer with the typed *timeout* error, and
the entry keeps its original binding (no request is rebound to another target). -/
theorem peepsy_C2 (now now' : Int) (t : Target) (s : MasterState)
    (id : Nat) (entry : ReqEntry) (h : alGet id s.activeRequests = some entry) :
    (childExit now t s).activeRequests = s.activeRequests
      ∧ (childExit now t s).completions = s.completions
      ∧ alGet id (childExit now t s).activeRequests = some entry
      ∧ (timeoutFire now' id (childExit now t s)).completions
          = s.completions ++ [(entry.caller, Outcome.rejectedOut
              ⟨ErrCode.peepsyTimeout,
               "Request timed out after " ++ toString entry.timeoutMs
                 ++ "ms for target: " ++ entry.origin⟩)] := by
  obtain ⟨ha, hc, _, _⟩ := childExit_frame now t s
  have h' : alGet id (childExit now t s).activeRequests = some entry := by
    rw [ha]
    exact h
  refine ⟨ha, hc, h', ?_⟩
  rw [timeoutFire_rejects now' id _ entry h', hc]

/-- Witness for C2 at the concrete in-flight state. -/
theorem peepsy_C2_witness :
    alGet 0 exInFlight.activeRequests = some exEntry
      ∧ ((childExit 20 "t1" exInFlight).activeRequests = exInFlight.activeRequests
          ∧ (childExit 20 "t1" exInFlight).completions = exInFlight.completions
          ∧ alGet 0 (childExit 20 "t1" exInFlight).activeRequests = some exEntry
          ∧ (timeoutFire 5011 0 (childExit 20 "t1" exInFlight)).completions
              = exInFlight.completions ++ [(exEntry.caller, Outcome.rejectedOut
                  ⟨ErrCode.peepsyTimeout,
                   "Request timed out after " ++ toString exEntry.timeoutMs
                     ++ "ms for target: " ++ exEntry.origin⟩)]) :=
  ⟨by decide, peepsy_C2 20 5011 "t1" exInFlight 0 exEntry (by decide)⟩

/-! ### Claim C4 (no retry on not-found) -/

theorem executeRequest_unknown (now : Int) (action tog : String) (timeout : Int)
    (caller : Nat) (s : MasterState)
    (h1 : alGet tog s.groups = none) (h2 : alGet tog s.processes = none) :
    executeRequest now action tog timeout caller s
      = ({ s with completions :=
            s.completions ++ [(caller, Outcome.rejectedOut (notFoundErr tog))] },
         ExecOutcome.rejectedOut (notFoundErr tog)) := by
  unfold executeRequest
  rw [h1]
  show dispatchTo now tog timeout caller ((alGet tog s.processes).map (fun e => (tog, e))) s = _
  rw [h2]
  rfl

theorem sendLoop_unknown (now : Int) (action tog : String) (timeout : Int)
    (caller : Nat) :
    ∀ (n : Nat) (s : MasterState) (lastE : Option PeepsyErr) (made : Nat),
      alGet tog s.groups = none → alGet tog s.processes = none →
      (sendLoop now action tog timeout caller (n + 1) s lastE made).2.1 = made + (n + 1)
        ∧ (sendLoop now action tog timeout caller (n + 1) s lastE made).2.2
            = some (notFoundErr tog) := by
  intro n
  induction n with
  | zero =>
    intro s lastE made h1 h2
    unfold sendLoop
    rw [executeRequest_unknown now action tog timeout caller s h1 h2]
    exact ⟨rfl, rfl⟩
  | succ n ih =>
    intro s lastE made h1 h2
    show (sendLoop now action tog timeout caller (n + 1 + 1) s lastE made).2.1 = _ ∧ _
    unfold sendLoop
    rw [executeRequest_unknown now action tog timeout caller s h1 h2]
    have := ih { s with completions :=
        s.completions ++ [(caller, Outcome.rejectedOut (notFoundErr tog))] }
      (some (notFoundErr tog)) (made + 1) h1 h2
    refine ⟨?_, this.2⟩
    rw [this.1]
    omega

/-- Claim C4 as stated is false on the code: with `retries = 1` and an unknown
`target_or_group`, `sendRequest` performs two `executeRequest` attempts (so a
retry did happen), though the final rejection is indeed the not-found error. -/
theorem peepsy_C4_counterexample :
    (sendRequestSync 0 "echo" "missing" 5000 9 1 (initState 2000 3 [])).2.1 = 2
      ∧ (sendRequestSync 0 "echo" "missing" 5000 9 1 (initState 2000 3 [])).2.2
          = some (notFoundErr "missing") := by
  exact ⟨by decide, by decide⟩

/-- Claim C4 amended: when the routing lookup fails (neither a group nor a worker
is named), `sendRequest` rejects with the *not found* error, but the failing
lookup is retried like any other error: with `retries = r` the loop makes
`r + 1` attempts, each failing with not-found, and throws the last not-found
error. -/
theorem peepsy_C4 (now : Int) (action tog : String) (timeout : Int)
    (caller retries : Nat) (s : MasterState)
    (h1 : alGet tog s.groups = none) (h2 : alGet tog s.processes = none) :
    (sendRequestSync now action tog timeout caller retries s).2.1 = retries + 1
      ∧ (sendRequestSync now action tog timeout caller retries s).2.2
          = some (notFoundErr tog) := by
  unfold sendRequestSync
  have h := sendLoop_unknown now action tog timeout caller retries s none 0 h1 h2
  refine ⟨?_, h.2⟩
  rw [h.1]
  omega

/-- Witness for C4 at a fresh master and unknown target. -/
theorem peepsy_C4_witness :
    alGet "missing" (initState 2000 3 []).groups = none
      ∧ alGet "missing" (initState 2000 3 []).processes = none
      ∧ ((sendRequestSync 0 "echo" "missing" 5000 9 3 (initState 2000 3 [])).2.1 = 3 + 1
          ∧ (sendRequestSync 0 "echo" "missing" 5000 9 3 (initState 2000 3 [])).2.2
              = some (notFoundErr "missing")) :=
  ⟨by decide, by decide,
   peepsy_C4 0 "echo" "missing" 5000 9 3 (initState 2000 3 []) (by decide) (by decide)⟩

/-! ### Claim C5 (health monitor marks workers unhealthy) -/

/-- Claim C5 describes the intended behaviour (also asserted by the repository's
own heartbeat test, which expects `getUnhealthyProcesses()` to contain the stale
worker), but the code cannot deliver it: the monitor does pass
`{status: 'unhealthy'}` to `updateProcessStats`, which rebuilds the record from
only `requestsHandled`/`requestsActive`/`averageResponseTime`/`lastActivity`/
`errors` and drops the `status` field.  At a tick where `now − last` far exceeds
`heartbeatIntervalMs × heartbeatMissThreshold` (here `995 > 100 × 3`), the
`heartbeat-missed` event is emitted but the worker's stats `status` stays
undefined and `getUnhealthyProcesses()` stays empty. -/
theorem peepsy_C5_code_bug :
    ((alGet "w1" (monitorTick 1000 (spawnChild 5 "w1" "worker.js"
          ProcessMode.sequential none (initState 100 3 []))).processStats).map
        (·.status)) = some none
      ∧ getUnhealthyProcesses (monitorTick 1000 (spawnChild 5 "w1" "worker.js"
          ProcessMode.sequential none (initState 100 3 []))) = []
      ∧ Emitted.heartbeatMissed "w1" 1000
          ∈ (monitorTick 1000 (spawnChild 5 "w1" "worker.js" ProcessMode.sequential none
              (initState 100 3 []))).events := by
  exact ⟨by decide, by decide, by decide⟩

/-! ### Claim C10 (timed-out requests never release `requestsActive`) -/

theorem timeoutFire_stats (now : Int) (id : Nat) (s : MasterState) (entry : ReqEntry)
    (t : Target) (st : ProcessStats)
    (h : alGet id s.activeRequests = some entry)
    (htgt : getTargetFromChild entry.childPid s = some t)
    (hst : alGet t s.processStats = some st) :
    (timeoutFire now id s).processStats
      = alSet t
          { requestsHandled := st.requestsHandled, requestsActive := st.requestsActive,
            averageResponseTime := st.averageResponseTime, lastActivity := now,
            errors := st.errors + 1, lastHeartbeatAt := none, status := none }
          s.processStats := by
  unfold timeoutFire
  rw [h]
  dsimp only
  unfold updateProcessStats
  rw [getTargetFromChild_congr entry.childPid s
    { s with activeRequests := alErase id s.activeRequests } rfl, htgt]
  dsimp only
  rw [show alGet t ({ s with activeRequests := alErase id s.activeRequests} : MasterState).processStats
      = some st from hst]
  dsimp only
  congr 1

/-- Claim C10: when the per-request timer fires, the active entry is removed and
the target's `errors` counter is incremented, but its `requestsActive` count is
left unchanged — the only decrement lives in the RESPONSE branch, which is a
no-op once the entry is gone, so a timed-out request counts against the target's
active count permanently and biases least-busy selection against it. -/
theorem peepsy_C10 (now : Int) (id : Nat) (s : MasterState) (entry : ReqEntry)
    (t : Target) (st : ProcessStats)
    (h : alGet id s.activeRequests = some entry)
    (htgt : getTargetFromChild entry.childPid s = some t)
    (hst : alGet t s.processStats = some st) :
    ((alGet t (timeoutFire now id s).processStats).map (·.requestsActive))
        = some st.requestsActive
      ∧ ((alGet t (timeoutFire now id s).processStats).map (·.errors))
          = some (st.errors + 1)
      ∧ alGet id (timeoutFire now id s).activeRequests = none
      ∧ (∀ u, u ≠ t → alGet u (timeoutFire now id s).processStats
            = alGet u s.processStats)
      ∧ (∀ (now2 : Int) (fromT : Target) (env : RespEnv), env.id = id →
            handleResponse now2 fromT env (timeoutFire now id s) = timeoutFire now id s)
      ∧ (∀ (s2 : MasterState) (a b : Target) (sa sb : ProcessStats),
            alGet a s2.processStats = some sa → alGet b s2.processStats = some sb →
            sb.requestsActive < sa.requestsActive →
            getLeastBusyProcessIndex s2 [a, b] = 1) := by
  have hstats := timeoutFire_stats now id s entry t st h htgt hst
  have hrm := timeoutFire_removes now id s entry h
  refine ⟨?_, ?_, hrm, ?_, ?_, ?_⟩
  · rw [hstats, alGet_alSet_self]
    rfl
  · rw [hstats, alGet_alSet_self]
    rfl
  · intro u hu
    rw [hstats, alGet_alSet_ne t u _ _ (fun hh => hu hh.symm)]
  · intro now2 fromT env henv
    apply handleResponse_noop
    rw [henv]
    exact hrm
  · intro s2 a b sa sb hsa hsb hlt
    unfold getLeastBusyProcessIndex
    simp [List.enum, List.enumFrom, hsa, hsb, hlt]

/-- Witness for C10: the concrete in-flight request on `t1` times out. -/
theorem peepsy_C10_witness :
    alGet 0 exInFlight.activeRequests = some exEntry
      ∧ getTargetFromChild exEntry.childPid exInFlight = some "t1"
      ∧ (alGet "t1" exInFlight.processStats).isSome = true
      ∧ ((alGet "t1" (timeoutFire 5011 0 exInFlight).processStats).map
          (·.requestsActive)) = some 1 := by
  refine ⟨by decide, by decide, by decide, ?_⟩
  have h := peepsy_C10 5011 0 exInFlight exEntry "t1"
    { requestsHandled := 0, requestsActive := 1, averageResponseTime := 0,
      lastActivity := 11, errors := 0, lastHeartbeatAt := none, status := none }
    (by decide) (by decide) (by decide)
  exact h.1

/-! ### Claim C8 (errorPayload.message surfaces to the caller) -/

/-- A master with one ungrouped worker `rm` and a direct send (caller 7,
request id 0) in flight on it. -/
def exDirect : MasterState :=
  (executeRequest 1 "err" "rm" 5000 7
    (spawnChild 0 "rm" "w.js" ProcessMode.sequential none (initState 2000 3 []))).1

/-- Claim C8 as stated is false on the code: when a RESPONSE carries both a flat
`error` and an `errorPayload`, the mapping `error ?? errorPayload?.message`
prefers the flat field, so a payload message "X" alongside `error: "boom"`
surfaces as "boom", which does not contain "X". -/
theorem peepsy_C8_counterexample :
    (handleResponse 2 "rm"
        { id := 0, status := 500, error := some "boom", errorPayloadMessage := some "X" }
        exDirect).completions
      = [(7, Outcome.rejectedOut ⟨ErrCode.peepsyGeneric, "boom"⟩)]
      ∧ strContains "boom" "X" = false := by
  exact ⟨by decide, by decide⟩

/-- Claim C8 amended: a child RESPONSE with `status ≥ 400` whose `errorPayload`
carries message `X` rejects the master awaiter with a message containing `X`
provided the flat `error` field is absent (when both are present the flat
`error` string takes precedence). -/
theorem peepsy_C8 (now : Int) (fromT : Target) (env : RespEnv) (s : MasterState)
    (entry : ReqEntry) (pl : String)
    (h : alGet env.id s.activeRequests = some entry)
    (hs : env.status ≥ 400) (he : env.error = none)
    (hp : env.errorPayloadMessage = some pl) :
    ∃ msg ext,
      (handleResponse now fromT env s).completions
          = s.completions
              ++ [(entry.caller, Outcome.rejectedOut ⟨ErrCode.peepsyGeneric, msg⟩)]
              ++ ext
        ∧ strContains msg pl = true := by
  unfold handleResponse
  rw [h]
  dsimp only
  rw [he, hp, if_pos hs]
  have hmono : ∀ S : MasterState, ∃ ext,
      (maybeDispatchQueued now fromT S).completions = S.completions ++ ext :=
    fun S => maybeDispatchQueued_completions_mono now fromT S
  refine ⟨pl, ?_⟩
  obtain ⟨ext, hext⟩ := hmono _
  rw [hext]
  refine ⟨ext, ?_, strContains_refl pl⟩
  simp

/-- Witness for C8 at the concrete in-flight direct request. -/
theorem peepsy_C8_witness :
    alGet 0 exDirect.activeRequests
        = some ({ childPid := 0, origin := "rm", timeoutMs := 5000, startTime := 1,
                  caller := 7 } : ReqEntry)
      ∧ (∃ msg ext,
          (handleResponse 2 "rm"
              { id := 0, status := 500, error := none, errorPayloadMessage := some "X" }
              exDirect).completions
              = exDirect.completions
                  ++ [(7, Outcome.rejectedOut ⟨ErrCode.peepsyGeneric, msg⟩)]
                  ++ ext
            ∧ strContains msg "X" = true) :=
  ⟨by decide,
   peepsy_C8 2 "rm" { id := 0, status := 500, error := none, errorPayloadMessage := some "X" }
     exDirect { childPid := 0, origin := "rm", timeoutMs := 5000, startTime := 1, caller := 7 }
     "X" (by decide) (by decide) rfl rfl⟩

/-! ### Claim C6 (stats never carry `status`/`lastHeartbeatAt`) -/

/-- Every stored stats record has `status` and `lastHeartbeatAt` undefined. -/
def StatsOK (s : MasterState) : Prop :=
  ∀ p ∈ s.processStats, p.2.status = none ∧ p.2.lastHeartbeatAt = none

theorem mem_alErase_sub [DecidableEq κ] (k : κ) (l : List (κ × β)) (p : κ × β)
    (h : p ∈ alErase k l) : p ∈ l := by
  induction l with
  | nil => simp [alErase] at h
  | cons q rest ih =>
    by_cases hq : q.1 = k
    · simp only [alErase, if_pos hq] at h
      exact List.mem_cons_of_mem _ (ih h)
    · simp only [alErase, if_neg hq] at h
      rcases List.mem_cons.mp h with h | h
      · exact List.mem_cons.mpr (Or.inl h)
      · exact List.mem_cons_of_mem _ (ih h)

theorem statsOK_congr {s s' : MasterState} (h : s'.processStats = s.processStats)
    (hs : StatsOK s) : StatsOK s' := by
  intro p hp
  exact hs p (h ▸ hp)

theorem statsOK_update (now : Int) (t : Option Target) (u : StatsUpdate)
    {s : MasterState} (hs : StatsOK s) : StatsOK (updateProcessStats now t u s) := by
  unfold updateProcessStats
  dsimp only
  repeat' split
  all_goals first
    | exact hs
    | exact fun p hp => (mem_alSet _ _ _ _ hp).elim
        (fun h => by rw [h]; exact ⟨rfl, rfl⟩) (fun h => hs p h)

theorem statsOK_init (now : Int) (t : Target) {s : MasterState} (hs : StatsOK s) :
    StatsOK (initProcessStats now t s) := by
  unfold initProcessStats
  intro p hp
  rcases mem_alSet _ _ _ _ hp with h | h
  · rw [h]
    exact ⟨rfl, rfl⟩
  · exact hs p h

theorem getChildForGroup_processStats (s : MasterState) (gid : String)
    (res : Option (Target × ChildEntry) × MasterState)
    (h : getChildForGroup s gid = Except.ok res) :
    res.2.processStats = s.processStats := by
  unfold getChildForGroup pickTarget at h
  repeat' split at h
  all_goals first
    | exact Except.noConfusion h
    | (injection h with h'
       subst h'
       repeat' split
       all_goals rfl)

theorem statsOK_dispatchTo (now : Int) (tog : String) (timeout : Int) (caller : Nat)
    (entry? : Option (Target × ChildEntry)) {s : MasterState} (hs : StatsOK s) :
    StatsOK (dispatchTo now tog timeout caller entry? s).1 := by
  cases entry? with
  | none => exact statsOK_congr rfl hs
  | some te =>
    obtain ⟨t, e⟩ := te
    exact statsOK_update _ _ _ (statsOK_congr rfl hs)

theorem statsOK_exec (now : Int) (action tog : String) (timeout : Int) (caller : Nat)
    {s : MasterState} (hs : StatsOK s) :
    StatsOK (executeRequest now action tog timeout caller s).1 := by
  unfold executeRequest
  cases hg : alGet tog s.groups with
  | none => exact statsOK_dispatchTo now tog timeout caller _ hs
  | some g =>
    dsimp only
    split
    · exact statsOK_congr rfl hs
    · cases hc : getChildForGroup s tog with
      | error e => exact statsOK_congr rfl hs
      | ok res =>
        show StatsOK (dispatchTo now tog timeout caller res.1 res.2).1
        exact statsOK_dispatchTo now tog timeout caller res.1
          (statsOK_congr (getChildForGroup_processStats s tog res hc) hs)

theorem statsOK_drain (now : Int) (gid : String) (fuel : Nat) {s : MasterState}
    (hs : StatsOK s) : StatsOK (drainQueue now gid fuel s) := by
  induction fuel generalizing s with
  | zero => exact hs
  | succ fuel ih =>
    unfold drainQueue
    repeat' split
    · exact hs
    · exact hs
    · exact hs
    · rename_i g hg next rest hq hcap
      exact ih (statsOK_exec _ _ _ _ _ (statsOK_congr rfl hs))

theorem statsOK_mdq (now : Int) (freed : Target) {s : MasterState} (hs : StatsOK s) :
    StatsOK (maybeDispatchQueued now freed s) := by
  unfold maybeDispatchQueued
  generalize s.groups = l
  induction l generalizing s with
  | nil => exact hs
  | cons p rest ih =>
    simp only [List.foldl_cons]
    apply ih
    dsimp only
    repeat' split
    · exact hs
    · exact statsOK_drain _ _ _ hs
    · exact hs

theorem statsOK_response (now : Int) (fromT : Target) (env : RespEnv)
    {s : MasterState} (hs : StatsOK s) : StatsOK (handleResponse now fromT env s) := by
  unfold handleResponse
  cases halg : alGet env.id s.activeRequests with
  | none => exact hs
  | some entry =>
    dsimp only
    apply statsOK_mdq
    apply statsOK_update
    apply statsOK_congr rfl
    split
    · exact statsOK_congr rfl (statsOK_update _ _ _ (statsOK_update _ _ _ hs))
    · exact statsOK_congr rfl (statsOK_update _ _ _ hs)

theorem statsOK_timeoutFire (now : Int) (id : Nat) {s : MasterState}
    (hs : StatsOK s) : StatsOK (timeoutFire now id s) := by
  unfold timeoutFire
  cases halg : alGet id s.activeRequests with
  | none => exact hs
  | some entry =>
    dsimp only
    apply statsOK_congr rfl
    exact statsOK_update _ _ _ (statsOK_congr rfl hs)

theorem statsOK_heartbeat (now : Int) (t : Target) (ts : Int) {s : MasterState}
    (hs : StatsOK s) : StatsOK (handleHeartbeat now t ts s) :=
  statsOK_update _ _ _ hs

theorem statsOK_spawn (now : Int) (t script : String) (mode : ProcessMode)
    (gid : Option String) {s : MasterState} (hs : StatsOK s) :
    StatsOK (spawnChild now t script mode gid s) := by
  unfold spawnChild addToGroup
  dsimp only
  repeat' split
  all_goals first
    | exact hs
    | exact statsOK_congr rfl (statsOK_init _ _ (statsOK_congr rfl hs))

theorem statsOK_configure (gid : String) (cfg : GroupConfig) {s : MasterState}
    (hs : StatsOK s) : StatsOK (configureGroup gid cfg s) := by
  unfold configureGroup
  repeat' split
  all_goals exact statsOK_congr rfl hs

theorem statsOK_cleanup (t : Target) {s : MasterState} (hs : StatsOK s) :
    StatsOK (cleanupProcess t s) := by
  intro p hp
  exact hs p (mem_alErase_sub t _ p hp)

theorem statsOK_exit (now : Int) (t : Target) {s : MasterState} (hs : StatsOK s) :
    StatsOK (childExit now t s) := by
  unfold childExit
  dsimp only
  repeat' split
  all_goals first
    | exact statsOK_cleanup t hs
    | exact statsOK_spawn _ _ _ _ _ (statsOK_congr rfl (statsOK_cleanup t hs))

theorem statsOK_tick (now : Int) {s : MasterState} (hs : StatsOK s) :
    StatsOK (monitorTick now s) := by
  unfold monitorTick
  generalize s.processStats = l
  induction l generalizing s with
  | nil => exact hs
  | cons p rest ih =>
    simp only [List.foldl_cons]
    apply ih
    dsimp only
    repeat' split
    · exact hs
    · exact statsOK_congr rfl (statsOK_update _ _ _ hs)
    · exact statsOK_update _ _ _ hs

theorem statsOK_reachable {s : MasterState} (h : Reachable s) : StatsOK s := by
  induction h with
  | init interval threshold tape => intro p hp; simp [initState] at hp
  | spawn now t script mode gid _ ih => exact statsOK_spawn now t script mode gid ih
  | configure gid cfg _ ih => exact statsOK_configure gid cfg ih
  | dispatch now action tog timeout caller _ ih => exact statsOK_exec now action tog timeout caller ih
  | response now fromTarget env _ ih => exact statsOK_response now fromTarget env ih
  | heartbeat now t ts _ ih => exact statsOK_heartbeat now t ts ih
  | timeoutF now id _ ih => exact statsOK_timeoutFire now id ih
  | tick now _ ih => exact statsOK_tick now ih
  | exit now t _ ih => exact statsOK_exit now t ih
  | shutdownChildDone now t _ ih => exact statsOK_cleanup t (statsOK_exit now t ih)
  | beginShutdown _ ih => exact statsOK_congr rfl ih

/-- Claim C6: `updateProcessStats` rebuilds the stored record from only
`requestsHandled`, `requestsActive`, `averageResponseTime`, `lastActivity` and
`errors`, discarding any `status` or `lastHeartbeatAt` passed in `updates`; so
in every reachable master state every stored stats record has `status` and
`lastHeartbeatAt` undefined and `getUnhealthyProcesses()` returns `[]`. -/
theorem peepsy_C6 (s : MasterState) (h : Reachable s) :
    (∀ p ∈ s.processStats, p.2.status = none ∧ p.2.lastHeartbeatAt = none)
      ∧ getUnhealthyProcesses s = [] := by
  have hok := statsOK_reachable h
  refine ⟨hok, ?_⟩
  unfold getUnhealthyProcesses
  rw [List.filterMap_eq_nil_iff]
  intro p hp
  rw [(hok p hp).1]
  simp

/-- Witness for C6: a state with a worker spawned, a heartbeat handled (its
`lastHeartbeatAt`/`status` updates are dropped) and a monitor tick applied. -/
theorem peepsy_C6_witness :
    (∀ p ∈ (monitorTick 1000 (handleHeartbeat 60 "w1" 55
        (spawnChild 5 "w1" "worker.js" ProcessMode.sequential none
          (initState 100 3 [])))).processStats,
        p.2.status = none ∧ p.2.lastHeartbeatAt = none)
      ∧ getUnhealthyProcesses (monitorTick 1000 (handleHeartbeat 60 "w1" 55
          (spawnChild 5 "w1" "worker.js" ProcessMode.sequential none
            (initState 100 3 [])))) = [] :=
  peepsy_C6 _ (Reachable.tick 1000 (Reachable.heartbeat 60 "w1" 55
    (Reachable.spawn 5 "w1" "worker.js" ProcessMode.sequential none
      (Reachable.init 100 3 []))))

/-! ### Claim C7 (round-robin selection, cursor, and balanced counts) -/

/-- The target selected by a cursor value: `targets[cursor mod n]`. -/
def nthTarget (ts : List Target) (i : Nat) : Target :=
  ts.getD (i % ts.length) ""

/-- Iterate `executeRequest` N times on the same group (N consecutive sends),
collecting the outcomes in order. -/
def dispatchSeq (now : Int) (action gid : String) (timeout : Int) (caller : Nat) :
    Nat → MasterState → MasterState × List ExecOutcome
  | 0, s => (s, [])
  | n + 1, s =>
    let r := executeRequest now action gid timeout caller s
    let rest := dispatchSeq now action gid timeout caller n r.1
    (rest.1, r.2 :: rest.2)

/-- How many of the collected outcomes dispatched to a given target. -/
def dispatchCount (outs : List ExecOutcome) (t : Target) : Nat :=
  outs.countP (fun o =>
    match o with
    | ExecOutcome.dispatchedOut t' _ => decide (t' = t)
    | _ => false)

/-- Number of `k < N` with `(c + k) mod n = i`: how often slot `i` is chosen in
`N` round-robin steps starting from cursor `c`. -/
def rrHits (n c i N : Nat) : Nat :=
  (List.range N).countP (fun k => decide ((c + k) % n = i))

theorem nthTarget_get (ts : List Target) (m : Nat) (h : m % ts.length < ts.length) :
    nthTarget ts m = ts.get ⟨m % ts.length, h⟩ := by
  unfold nthTarget
  rw [List.getD_eq_getElem _ _ h]
  rfl

theorem rr_residue (n c i : Nat) (hn : 0 < n) (hi : i < n) :
    (c + (i + n - c % n) % n) % n = i := by
  have hkey : c + (i + n - c % n) = i + n + n * (c / n) := by
    have hdm := Nat.mod_add_div c n
    have hcn : c % n < n := Nat.mod_lt _ hn
    generalize n * (c / n) = w at hdm ⊢
    generalize c % n = u at hdm hcn ⊢
    omega
  calc (c + (i + n - c % n) % n) % n
      = (c + (i + n - c % n)) % n := Nat.add_mod_mod c (i + n - c % n) n
    _ = (i + n + n * (c / n)) % n := by rw [hkey]
    _ = (i + n) % n := Nat.add_mul_mod_self_left (i + n) n (c / n)
    _ = i % n := Nat.add_mod_right i n
    _ = i := Nat.mod_eq_of_lt hi

theorem rr_hit_iff (n c i k : Nat) (hn : 0 < n) (hi : i < n) :
    ((c + k) % n = i) ↔ (k ≡ (i + n - c % n) % n [MOD n]) := by
  have hres := rr_residue n c i hn hi
  constructor
  · intro hk
    have h1 : c + k ≡ c + (i + n - c % n) % n [MOD n] := by
      show (c + k) % n = (c + (i + n - c % n) % n) % n
      rw [hk, hres]
    exact Nat.ModEq.add_left_cancel' c h1
  · intro hk
    have h1 : c + k ≡ c + (i + n - c % n) % n [MOD n] := Nat.ModEq.add_left c hk
    have h2 : (c + k) % n = (c + (i + n - c % n) % n) % n := h1
    rw [h2, hres]

theorem rrHits_count (n c i N : Nat) (hn : 0 < n) (hi : i < n) :
    rrHits n c i N = Nat.count (· ≡ (i + n - c % n) % n [MOD n]) N := by
  unfold rrHits Nat.count
  refine List.countP_congr ?_
  intro k hk
  simp only [decide_eq_true_eq]
  exact rr_hit_iff n c i k hn hi

theorem rrHits_closed (n c i N : Nat) (hn : 0 < n) (hi : i < n) :
    rrHits n c i N = N / n + if (i + n - c % n) % n < N % n then 1 else 0 := by
  rw [rrHits_count n c i N hn hi,
      Nat.count_modEq_card N hn ((i + n - c % n) % n),
      Nat.mod_eq_of_lt (Nat.mod_lt (i + n - c % n) hn)]

theorem rrHits_spread (n c N i j : Nat) (hn : 0 < n) (hi : i < n) (hj : j < n) :
    rrHits n c i N ≤ rrHits n c j N + 1 := by
  rw [rrHits_closed n c i N hn hi, rrHits_closed n c j N hn hj]
  split <;> split <;> omega

theorem getChildForGroup_rr (s : MasterState) (gid : String) (g : GroupEntry)
    (hg : alGet gid s.groups = some g)
    (hstrat : g.config.strategy.getD Strategy.roundRobin = Strategy.roundRobin)
    (hne : g.targets.length ≠ 0) :
    getChildForGroup s gid
      = Except.ok
          ((alGet (nthTarget g.targets ((alGet gid s.roundRobinCounters).getD 0))
              s.processes).map
            (fun e =>
              (nthTarget g.targets ((alGet gid s.roundRobinCounters).getD 0), e)),
           { s with roundRobinCounters := alSet gid ((alGet gid s.roundRobinCounters).getD 0 + 1) s.roundRobinCounters }) := by
  have hpos : 0 < g.targets.length := Nat.pos_of_ne_zero hne
  have hlt : ((alGet gid s.roundRobinCounters).getD 0) % g.targets.length
      < g.targets.length := Nat.mod_lt _ hpos
  unfold getChildForGroup
  rw [hg]
  dsimp only
  rw [if_neg hne, hstrat]
  dsimp only
  unfold pickTarget
  dsimp only
  rw [List.get?_eq_getElem?, List.getElem?_eq_getElem hlt]
  dsimp only
  rw [nthTarget_get g.targets _ hlt]
  rfl

theorem exec_rr_step (now : Int) (action gid : String) (timeout : Int) (caller : Nat)
    (s : MasterState) (g : GroupEntry)
    (hg : alGet gid s.groups = some g)
    (hstrat : g.config.strategy.getD Strategy.roundRobin = Strategy.roundRobin)
    (hcap : g.config.maxConcurrency = none)
    (hne : g.targets.length ≠ 0)
    (hproc : ∀ t ∈ g.targets, (alGet t s.processes).isSome = true) :
    (executeRequest now action gid timeout caller s).2
        = ExecOutcome.dispatchedOut
            (nthTarget g.targets ((alGet gid s.roundRobinCounters).getD 0)) s.nextId
      ∧ (executeRequest now action gid timeout caller s).1.groups = s.groups
      ∧ (executeRequest now action gid timeout caller s).1.processes = s.processes
      ∧ (executeRequest now action gid timeout caller s).1.roundRobinCounters
          = alSet gid ((alGet gid s.roundRobinCounters).getD 0 + 1)
              s.roundRobinCounters
      ∧ (executeRequest now action gid timeout caller s).1.nextId = s.nextId + 1 := by
  have hpos : 0 < g.targets.length := Nat.pos_of_ne_zero hne
  have hlt : ((alGet gid s.roundRobinCounters).getD 0) % g.targets.length
      < g.targets.length := Nat.mod_lt _ hpos
  have hmem : nthTarget g.targets ((alGet gid s.roundRobinCounters).getD 0)
      ∈ g.targets := by
    rw [nthTarget_get g.targets _ hlt]
    exact List.get_mem _ _ _
  obtain ⟨e, he⟩ := Option.isSome_iff_exists.mp (hproc _ hmem)
  unfold executeRequest
  rw [hg]
  dsimp only
  rw [hcap]
  dsimp only
  rw [if_neg (fun h => Bool.noConfusion h)]
  rw [getChildForGroup_rr s gid g hg hstrat hne]
  dsimp only
  rw [he]
  dsimp only [Option.map]
  unfold dispatchTo
  dsimp only
  refine ⟨rfl, ?_, ?_, ?_, ?_⟩ <;> simp

theorem dispatchSeq_rr (now : Int) (action gid : String) (timeout : Int)
    (caller : Nat) (N : Nat) (s : MasterState) (g : GroupEntry)
    (hg : alGet gid s.groups = some g)
    (hstrat : g.config.strategy.getD Strategy.roundRobin = Strategy.roundRobin)
    (hcap : g.config.maxConcurrency = none)
    (hne : g.targets.length ≠ 0)
    (hproc : ∀ t ∈ g.targets, (alGet t s.processes).isSome = true) :
    (dispatchSeq now action gid timeout caller N s).2
        = (List.range N).map (fun k =>
            ExecOutcome.dispatchedOut
              (nthTarget g.targets ((alGet gid s.roundRobinCounters).getD 0 + k))
              (s.nextId + k))
      ∧ (dispatchSeq now action gid timeout caller N s).1.groups = s.groups
      ∧ (dispatchSeq now action gid timeout caller N s).1.processes = s.processes
      ∧ (alGet gid
            (dispatchSeq now action gid timeout caller N s).1.roundRobinCounters).getD 0
          = (alGet gid s.roundRobinCounters).getD 0 + N
      ∧ (dispatchSeq now action gid timeout caller N s).1.nextId = s.nextId + N := by
  revert hg hproc
  induction N generalizing s with
  | zero =>
    intro hg hproc
    exact ⟨by simp [dispatchSeq], rfl, rfl, rfl, rfl⟩
  | succ N ih =>
    intro hg hproc
    obtain ⟨h2, hgr, hpr, hrc, hni⟩ :=
      exec_rr_step now action gid timeout caller s g hg hstrat hcap hne hproc
    have hg1 : alGet gid (executeRequest now action gid timeout caller s).1.groups
        = some g := by rw [hgr]; exact hg
    have hproc1 : ∀ t ∈ g.targets,
        (alGet t (executeRequest now action gid timeout caller s).1.processes).isSome
          = true := by
      intro t ht
      rw [hpr]
      exact hproc t ht
    have hc1 : (alGet gid
          (executeRequest now action gid timeout caller s).1.roundRobinCounters).getD 0
        = (alGet gid s.roundRobinCounters).getD 0 + 1 := by
      rw [hrc, alGet_alSet_self]
      rfl
    obtain ⟨i2, igr, ipr, irc, ini⟩ :=
      ih (executeRequest now action gid timeout caller s).1 hg1 hproc1
    have hstep : dispatchSeq now action gid timeout caller (N + 1) s
        = ((dispatchSeq now action gid timeout caller N
              (executeRequest now action gid timeout caller s).1).1,
           (executeRequest now action gid timeout caller s).2
             :: (dispatchSeq now action gid timeout caller N
                  (executeRequest now action gid timeout caller s).1).2) := rfl
    refine ⟨?_, ?_, ?_, ?_, ?_⟩
    · rw [hstep]
      dsimp only
      rw [h2, i2, hc1, hni, List.range_succ_eq_map, List.map_cons, List.map_map]
      congr 1
      refine List.map_congr_left ?_
      intro k hk
      simp only [Function.comp]
      have e1 : (alGet gid s.roundRobinCounters).getD 0 + 1 + k
          = (alGet gid s.roundRobinCounters).getD 0 + Nat.succ k := by omega
      have e2 : s.nextId + 1 + k = s.nextId + Nat.succ k := by omega
      rw [e1, e2]
    · rw [hstep]
      dsimp only
      rw [igr, hgr]
    · rw [hstep]
      dsimp only
      rw [ipr, hpr]
    · rw [hstep]
      dsimp only
      rw [irc, hc1]
      omega
    · rw [hstep]
      dsimp only
      rw [ini, hni]
      omega

theorem dispatchCount_eq_rrHits (ts : List Target) (c0 base N i : Nat)
    (hnd : ts.Nodup) (hi : i < ts.length) :
    dispatchCount
        ((List.range N).map (fun k =>
          ExecOutcome.dispatchedOut (nthTarget ts (c0 + k)) (base + k)))
        (ts.get ⟨i, hi⟩)
      = rrHits ts.length c0 i N := by
  unfold dispatchCount rrHits
  rw [List.countP_map]
  refine List.countP_congr ?_
  intro k hk
  have hlt : (c0 + k) % ts.length < ts.length :=
    Nat.mod_lt _ (Nat.lt_of_le_of_lt (Nat.zero_le i) hi)
  show (decide (nthTarget ts (c0 + k) = ts.get ⟨i, hi⟩) = true)
      ↔ (decide ((c0 + k) % ts.length = i) = true)
  simp only [decide_eq_true_eq]
  rw [nthTarget_get ts _ hlt]
  constructor
  · intro h
    exact congrArg Fin.val ((List.Nodup.get_inj_iff hnd).mp h)
  · intro h
    exact congrArg ts.get (Fin.ext h)

theorem spawnChild_rr_persist (now : Int) (t2 : Target) (script : String)
    (mode : ProcessMode) (gid : String) (s : MasterState)
    (hg : (alGet gid s.groups).isSome = true) :
    (spawnChild now t2 script mode (some gid) s).roundRobinCounters
      = s.roundRobinCounters := by
  unfold spawnChild addToGroup initProcessStats
  dsimp only
  repeat' split
  all_goals first | rfl | simp_all

theorem alGet_filter_keep [DecidableEq κ] (k : κ) (q : κ × β → Bool)
    (l : List (κ × β)) (hk : ∀ v : β, q (k, v) = true) :
    alGet k (l.filter q) = alGet k l := by
  induction l with
  | nil => rfl
  | cons p rest ih =>
    rw [List.filter_cons]
    by_cases hp : p.1 = k
    · have hcond : q p = true := by
        have hpe : p = (k, p.2) := by
          rw [← hp]
        rw [hpe]
        exact hk p.2
      rw [if_pos hcond]
      simp only [alGet, if_pos hp]
    · by_cases hq : q p = true
      · rw [if_pos hq]
        simp only [alGet, if_neg hp]
        exact ih
      · rw [if_neg hq, ih]
        simp only [alGet, if_neg hp]

theorem cleanupProcess_rr_persist (t2 : Target) (gid : String) (s : MasterState)
    (g : GroupEntry)
    (hnd : (s.groups.map (·.1)).Nodup)
    (hg : alGet gid s.groups = some g)
    (hne : g.targets.erase t2 ≠ []) :
    alGet gid (cleanupProcess t2 s).roundRobinCounters
      = alGet gid s.roundRobinCounters := by
  unfold cleanupProcess
  dsimp only
  refine alGet_filter_keep gid _ s.roundRobinCounters ?_
  intro v
  dsimp only
  rw [decide_eq_true_eq]
  intro hmem
  rw [List.mem_filterMap] at hmem
  obtain ⟨p, hp, hpe⟩ := hmem
  by_cases hc : t2 ∈ p.2.targets ∧ p.2.targets.erase t2 = []
  · rw [if_pos hc] at hpe
    have hp1 : p.1 = gid := Option.some.inj hpe
    have hpmem : (gid, p.2) ∈ s.groups := by
      rw [← hp1]
      exact hp
    have hpg : p.2 = g :=
      nodupKeys_eq s.groups gid p.2 g hnd hpmem (alGet_mem gid g s.groups hg)
    exact hne (hpg ▸ hc.2)
  · rw [if_neg hc] at hpe
    exact Option.noConfusion hpe

/-- A master with one round-robin group `"g"` of two spawned workers and no
concurrency cap, its counter table as group creation leaves it. -/
def exRRG : GroupEntry :=
  { targets := ["a", "b"],
    config := { strategy := some Strategy.roundRobin, maxConcurrency := none,
                disableAutoRestart := none } }

def exRR : MasterState :=
  { processes :=
      [("a", { pid := 0, mode := ProcessMode.sequential, scriptPath := "w.js",
               groupId := some "g" }),
       ("b", { pid := 1, mode := ProcessMode.sequential, scriptPath := "w.js",
               groupId := some "g" })],
    groups := [("g", exRRG)],
    roundRobinCounters := [("g", 0)],
    activeRequests := [], groupQueues := [],
    processStats := [], completions := [], events := [],
    isShuttingDown := false, heartbeatIntervalMs := 30000,
    heartbeatMissThreshold := 3, nextPid := 2, nextId := 0, randTape := [] }

/-- **C7.** Under the round-robin strategy (a group whose effective strategy is
round-robin and which has no concurrency cap), the k-th of N consecutive sends
to the group dispatches to `targets[(c0 + k) mod n]`, where `c0` is the saved
cursor and `n` the length of the target list; the cursor post-increments once
per dispatch, reaching `c0 + N`; the per-target dispatch counts of the N sends
differ pairwise by at most 1; and the cursor persists across group-membership
changes: spawning a further child into the existing group leaves the counter
table unchanged, and cleaning up a process that does not empty the group leaves
the group's counter entry unchanged. -/
theorem peepsy_C7 (now : Int) (action gid : String) (timeout : Int) (caller : Nat)
    (N : Nat) (s : MasterState) (g : GroupEntry)
    (hg : alGet gid s.groups = some g)
    (hstrat : g.config.strategy.getD Strategy.roundRobin = Strategy.roundRobin)
    (hcap : g.config.maxConcurrency = none)
    (hne : g.targets.length ≠ 0)
    (hnd : g.targets.Nodup)
    (hgnd : (s.groups.map (·.1)).Nodup)
    (hproc : ∀ t ∈ g.targets, (alGet t s.processes).isSome = true) :
    (dispatchSeq now action gid timeout caller N s).2
        = (List.range N).map (fun k =>
            ExecOutcome.dispatchedOut
              (nthTarget g.targets ((alGet gid s.roundRobinCounters).getD 0 + k))
              (s.nextId + k))
      ∧ (alGet gid
            (dispatchSeq now action gid timeout caller N s).1.roundRobinCounters).getD 0
          = (alGet gid s.roundRobinCounters).getD 0 + N
      ∧ (∀ i j : Fin g.targets.length,
          dispatchCount (dispatchSeq now action gid timeout caller N s).2
              (g.targets.get i)
            ≤ dispatchCount (dispatchSeq now action gid timeout caller N s).2
                (g.targets.get j) + 1)
      ∧ (∀ t2 script mode,
          (spawnChild now t2 script mode (some gid) s).roundRobinCounters
            = s.roundRobinCounters)
      ∧ (∀ t2, g.targets.erase t2 ≠ [] →
          alGet gid (cleanupProcess t2 s).roundRobinCounters
            = alGet gid s.roundRobinCounters) := by
  obtain ⟨h2, hgr, hpr, hrc, hni⟩ :=
    dispatchSeq_rr now action gid timeout caller N s g hg hstrat hcap hne hproc
  refine ⟨h2, hrc, ?_, ?_, ?_⟩
  · intro i j
    have hi : dispatchCount (dispatchSeq now action gid timeout caller N s).2
        (g.targets.get i)
          = rrHits g.targets.length ((alGet gid s.roundRobinCounters).getD 0) i.1 N := by
      rw [h2]
      exact dispatchCount_eq_rrHits g.targets _ _ N i.1 hnd i.2
    have hj : dispatchCount (dispatchSeq now action gid timeout caller N s).2
        (g.targets.get j)
          = rrHits g.targets.length ((alGet gid s.roundRobinCounters).getD 0) j.1 N := by
      rw [h2]
      exact dispatchCount_eq_rrHits g.targets _ _ N j.1 hnd j.2
    rw [hi, hj]
    exact rrHits_spread g.targets.length _ N i.1 j.1 (Nat.pos_of_ne_zero hne) i.2 j.2
  · intro t2 script mode
    exact spawnChild_rr_persist now t2 script mode gid s (by rw [hg]; rfl)
  · intro t2 hne2
    exact cleanupProcess_rr_persist t2 gid s g hgnd hg hne2

/-- Witness for C7: in `exRR` (round-robin group `"g"` = `["a","b"]`, cursor 0,
no cap) the hypotheses hold and three sends dispatch per the formula. -/
theorem peepsy_C7_witness :
    (alGet "g" exRR.groups = some exRRG
      ∧ exRRG.config.strategy.getD Strategy.roundRobin = Strategy.roundRobin
      ∧ exRRG.config.maxConcurrency = none
      ∧ exRRG.targets.length ≠ 0
      ∧ exRRG.targets.Nodup
      ∧ (exRR.groups.map (·.1)).Nodup
      ∧ ∀ t ∈ exRRG.targets, (alGet t exRR.processes).isSome = true)
    ∧ (dispatchSeq 0 "work" "g" 5000 1 3 exRR).2
        = (List.range 3).map (fun k =>
            ExecOutcome.dispatchedOut
              (nthTarget exRRG.targets
                ((alGet "g" exRR.roundRobinCounters).getD 0 + k))
              (exRR.nextId + k)) :=
  ⟨⟨rfl, rfl, rfl, by decide, by decide, by decide, by decide⟩,
   (peepsy_C7 0 "work" "g" 5000 1 3 exRR exRRG rfl rfl rfl (by decide) (by decide)
      (by decide) (by decide)).1⟩

/-! ### Claim C1 (group concurrency cap and queueing) -/

theorem groupActiveSum_cons (s : MasterState) (t : Target) (ts : List Target) :
    groupActiveSum s (t :: ts)
      = ((alGet t s.processStats).map (·.requestsActive)).getD 0
          + groupActiveSum s ts := by
  unfold groupActiveSum
  rw [List.map_cons, List.sum_cons]

theorem groupActiveSum_stats_congr {s' s : MasterState}
    (h : s'.processStats = s.processStats) (ts : List Target) :
    groupActiveSum s' ts = groupActiveSum s ts := by
  unfold groupActiveSum
  rw [h]

theorem groupActiveSum_alSet_not_mem (s : MasterState) (t : Target)
    (v : ProcessStats) (ts : List Target) (ht : t ∉ ts) :
    groupActiveSum { s with processStats := alSet t v s.processStats } ts
      = groupActiveSum s ts := by
  unfold groupActiveSum
  dsimp only
  refine congrArg List.sum (List.map_congr_left ?_)
  intro a ha
  rw [alGet_alSet_ne t a v s.processStats (fun hh => ht (by rw [hh]; exact ha))]

theorem groupActiveSum_alSet_le (s : MasterState) (ts : List Target) (t : Target)
    (v : ProcessStats)
    (hnd : ts.Nodup)
    (hv : v.requestsActive
        ≤ ((alGet t s.processStats).map (·.requestsActive)).getD 0 + 1) :
    groupActiveSum { s with processStats := alSet t v s.processStats } ts
      ≤ groupActiveSum s ts + 1 := by
  revert hnd
  induction ts with
  | nil =>
    intro _
    exact Nat.le_succ _
  | cons a rest ih =>
    intro hnd
    rw [List.nodup_cons] at hnd
    rw [groupActiveSum_cons, groupActiveSum_cons]
    by_cases ha : a = t
    · subst ha
      dsimp only
      rw [alGet_alSet_self, groupActiveSum_alSet_not_mem s a v rest hnd.1]
      dsimp only [Option.map, Option.getD] at hv ⊢
      omega
    · dsimp only
      rw [alGet_alSet_ne t a v s.processStats (fun hh => ha hh.symm)]
      have htail := ih hnd.2
      omega

theorem updateProcessStats_sum_le (now : Int) (tgt : Option Target) (s : MasterState)
    (ts : List Target) (hnd : ts.Nodup) :
    groupActiveSum (updateProcessStats now tgt
        { StatsUpdate.empty with requestsActive := some 1 } s) ts
      ≤ groupActiveSum s ts + 1 := by
  unfold updateProcessStats
  cases tgt with
  | none => exact Nat.le_succ _
  | some t =>
    dsimp only
    cases hstats : alGet t s.processStats with
    | none => exact Nat.le_succ _
    | some stats =>
      dsimp only
      refine groupActiveSum_alSet_le s ts t _ hnd ?_
      rw [hstats]
      dsimp only [Option.map, Option.getD]
      omega

theorem dispatchTo_cap_le (now : Int) (tog : String) (timeout : Int) (caller : Nat)
    (entry? : Option (Target × ChildEntry)) (s : MasterState) (ts : List Target)
    (hnd : ts.Nodup) :
    groupActiveSum (dispatchTo now tog timeout caller entry? s).1 ts
      ≤ groupActiveSum s ts + 1 := by
  cases entry? with
  | none =>
    unfold dispatchTo rejectCaller
    dsimp only
    exact Nat.le_succ_of_le (Nat.le_of_eq (groupActiveSum_stats_congr rfl ts))
  | some te =>
    obtain ⟨t, e⟩ := te
    unfold dispatchTo
    dsimp only
    refine Nat.le_trans (updateProcessStats_sum_le now _ _ ts hnd) ?_
    exact Nat.succ_le_succ (Nat.le_of_eq (groupActiveSum_stats_congr rfl ts))

theorem exec_atCap (now : Int) (action gid : String) (timeout : Int) (caller : Nat)
    (s : MasterState) (g : GroupEntry) (m : Int)
    (hg : alGet gid s.groups = some g)
    (hm : g.config.maxConcurrency = some m)
    (hmpos : 0 < m)
    (hge : (groupActiveSum s g.targets : Int) ≥ m) :
    executeRequest now action gid timeout caller s
      = ({ s with groupQueues := alSet gid ((alGet gid s.groupQueues).getD [] ++ [{ action := action, timeout := timeout, caller := caller }]) s.groupQueues },
         ExecOutcome.queuedOut) := by
  unfold executeRequest
  rw [hg]
  dsimp only
  rw [hm]
  dsimp only
  have hcond : (decide (0 < m)
      && decide ((groupActiveSum s g.targets : Int) ≥ m)) = true := by
    rw [decide_eq_true hmpos, decide_eq_true hge]
    rfl
  rw [if_pos hcond]

theorem exec_cap_preserved (now : Int) (action gid : String) (timeout : Int)
    (caller : Nat) (s : MasterState) (g : GroupEntry) (m : Int)
    (hg : alGet gid s.groups = some g)
    (hm : g.config.maxConcurrency = some m)
    (hnd : g.targets.Nodup)
    (hlt : (groupActiveSum s g.targets : Int) < m) :
    (groupActiveSum (executeRequest now action gid timeout caller s).1 g.targets : Int)
      ≤ m := by
  unfold executeRequest
  rw [hg]
  dsimp only
  rw [hm]
  dsimp only
  have hcond : (decide (0 < m)
      && decide ((groupActiveSum s g.targets : Int) ≥ m)) = false := by
    rw [decide_eq_false (by omega : ¬ ((groupActiveSum s g.targets : Int) ≥ m)),
        Bool.and_false]
  have hnot : ¬ ((decide (0 < m)
      && decide ((groupActiveSum s g.targets : Int) ≥ m)) = true) := by
    rw [hcond]
    exact Bool.false_ne_true
  rw [if_neg hnot]
  cases hc : getChildForGroup s gid with
  | error e =>
    dsimp only
    have heq : groupActiveSum (rejectCaller caller e s).1 g.targets
        = groupActiveSum s g.targets := groupActiveSum_stats_congr rfl g.targets
    omega
  | ok res =>
    obtain ⟨entry?, s2⟩ := res
    dsimp only
    have h2 := dispatchTo_cap_le now gid timeout caller entry? s2 g.targets hnd
    have h3 : groupActiveSum s2 g.targets = groupActiveSum s g.targets :=
      groupActiveSum_stats_congr
        (getChildForGroup_processStats s gid ⟨entry?, s2⟩ hc) g.targets
    omega

theorem getChildForGroup_groupQueues (s : MasterState) (gid : String)
    (res : Option (Target × ChildEntry) × MasterState)
    (h : getChildForGroup s gid = Except.ok res) :
    res.2.groupQueues = s.groupQueues := by
  unfold getChildForGroup pickTarget at h
  repeat' split at h
  all_goals first
    | exact Except.noConfusion h
    | (injection h with h'
       subst h'
       repeat' split
       all_goals rfl)

theorem executeRequest_groupQueues_not_atCap (now : Int) (action tog : String)
    (timeout : Int) (caller : Nat) (s : MasterState) (g : GroupEntry)
    (hg : alGet tog s.groups = some g)
    (hcapF : ∀ m, g.config.maxConcurrency = some m
      → ¬ (0 < m ∧ (groupActiveSum s g.targets : Int) ≥ m)) :
    (executeRequest now action tog timeout caller s).1.groupQueues
      = s.groupQueues := by
  unfold executeRequest
  rw [hg]
  dsimp only
  cases hmc : g.config.maxConcurrency with
  | none =>
    dsimp only
    rw [if_neg (fun h => Bool.noConfusion h)]
    cases hc : getChildForGroup s tog with
    | error e => rfl
    | ok res =>
      obtain ⟨entry?, s2⟩ := res
      dsimp only
      have h2 : s2.groupQueues = s.groupQueues :=
        getChildForGroup_groupQueues s tog ⟨entry?, s2⟩ hc
      cases entry? with
      | none => exact h2
      | some te =>
        obtain ⟨t, e⟩ := te
        unfold dispatchTo
        dsimp only
        rw [updateProcessStats_groupQueues]
        exact h2
  | some m =>
    dsimp only
    have hnot : ¬ ((decide (0 < m)
        && decide ((groupActiveSum s g.targets : Int) ≥ m)) = true) := by
      intro hcontra
      rw [Bool.and_eq_true, decide_eq_true_eq, decide_eq_true_eq] at hcontra
      exact hcapF m hmc hcontra
    rw [if_neg hnot]
    cases hc : getChildForGroup s tog with
    | error e => rfl
    | ok res =>
      obtain ⟨entry?, s2⟩ := res
      dsimp only
      have h2 : s2.groupQueues = s.groupQueues :=
        getChildForGroup_groupQueues s tog ⟨entry?, s2⟩ hc
      cases entry? with
      | none => exact h2
      | some te =>
        obtain ⟨t, e⟩ := te
        unfold dispatchTo
        dsimp only
        rw [updateProcessStats_groupQueues]
        exact h2

theorem drainQueue_fifo (now : Int) (gid : String) (fuel : Nat) (s : MasterState) :
    ∃ k, (alGet gid (drainQueue now gid fuel s).groupQueues).getD []
      = ((alGet gid s.groupQueues).getD []).drop k := by
  induction fuel generalizing s with
  | zero => exact ⟨0, rfl⟩
  | succ fuel ih =>
    unfold drainQueue
    cases hgg : alGet gid s.groups with
    | none => exact ⟨0, rfl⟩
    | some g =>
      dsimp only
      cases hq : (alGet gid s.groupQueues).getD [] with
      | nil =>
        refine ⟨0, ?_⟩
        dsimp only
        rw [hq]
        rfl
      | cons next rest =>
        dsimp only
        split
        · refine ⟨0, ?_⟩
          rw [hq]
          rfl
        · rename_i hguard
          obtain ⟨k, hk⟩ := ih (executeRequest now next.action gid next.timeout
            next.caller { s with groupQueues := alSet gid rest s.groupQueues }).1
          refine ⟨k + 1, ?_⟩
          refine hk.trans ?_
          have hcap2 : ∀ mm, g.config.maxConcurrency = some mm
              → ¬ (0 < mm ∧ (groupActiveSum
                  { s with groupQueues := alSet gid rest s.groupQueues }
                    g.targets : Int) ≥ mm) :=
            fun mm hm2 hand => hguard (by rw [hm2]; exact hand.2)
          rw [executeRequest_groupQueues_not_atCap now next.action gid next.timeout
            next.caller { s with groupQueues := alSet gid rest s.groupQueues } g hgg
            hcap2]
          dsimp only
          rw [alGet_alSet_self]
          rfl

theorem drainQueue_cap_preserved (now : Int) (gid : String) (fuel : Nat)
    (s : MasterState) (g : GroupEntry) (m : Int)
    (hg : alGet gid s.groups = some g)
    (hm : g.config.maxConcurrency = some m)
    (hnd : g.targets.Nodup)
    (hle : (groupActiveSum s g.targets : Int) ≤ m) :
    (groupActiveSum (drainQueue now gid fuel s) g.targets : Int) ≤ m := by
  revert hg hle
  induction fuel generalizing s with
  | zero =>
    intro hg hle
    exact hle
  | succ fuel ih =>
    intro hg hle
    unfold drainQueue
    rw [hg]
    dsimp only
    cases hq : (alGet gid s.groupQueues).getD [] with
    | nil => exact hle
    | cons next rest =>
      dsimp only
      split
      · exact hle
      · rename_i hguard
        rw [hm] at hguard
        have hlt : (groupActiveSum s g.targets : Int) < m := by
          simp only [Option.getD_some] at hguard
          omega
        have hexec : (groupActiveSum (executeRequest now next.action gid next.timeout
            next.caller { s with groupQueues := alSet gid rest s.groupQueues }).1
              g.targets : Int) ≤ m :=
          exec_cap_preserved now next.action gid next.timeout next.caller
            { s with groupQueues := alSet gid rest s.groupQueues } g m hg hm hnd hlt
        have hgex : alGet gid (executeRequest now next.action gid next.timeout
            next.caller { s with groupQueues := alSet gid rest s.groupQueues }).1.groups
              = some g := by
          rw [(executeRequest_frameD now next.action gid next.timeout next.caller
            { s with groupQueues := alSet gid rest s.groupQueues }).2.1]
          exact hg
        exact ih (executeRequest now next.action gid next.timeout next.caller
          { s with groupQueues := alSet gid rest s.groupQueues }).1 hgex hexec

/-- A master with group `"g"` capped at `max_concurrency = 1` and a single
spawned member `"a"`. -/
def exC1cfg : GroupConfig :=
  { strategy := some Strategy.roundRobin, maxConcurrency := some 1,
    disableAutoRestart := none }

def exC1base : MasterState :=
  spawnChild 20 "a" "w.js" ProcessMode.sequential (some "g")
    (configureGroup "g" exC1cfg (initState 100 3 []))

/-- After one group-routed dispatch the group-wide active sum has reached the
cap of 1. -/
def exC1sat : MasterState :=
  (executeRequest 30 "act" "g" 5000 1 exC1base).1

/-- A further send addressed *directly* to the member target `"a"` takes the
`targetOrGroup` route, which performs no cap check: the sum reaches 2 > 1. -/
def exC1over : MasterState :=
  (executeRequest 40 "act" "a" 5000 2 exC1sat).1

/-- Counterexample to C1's universally-quantified invariant: a reachable state
whose group `"g"` is configured with `max_concurrency = 1` while the sum of
`requestsActive` across its targets is 2, because a send addressed directly to
the member target bypasses `executeRequest`'s group cap check. -/
theorem peepsy_C1_counterexample :
    Reachable exC1over
      ∧ (alGet "g" exC1over.groups).map
          (fun g => (g.config.maxConcurrency, groupActiveSum exC1over g.targets))
          = some (some 1, 2) :=
  ⟨Reachable.dispatch 40 "act" "a" 5000 2
     (Reachable.dispatch 30 "act" "g" 5000 1
       (Reachable.spawn 20 "a" "w.js" ProcessMode.sequential (some "g")
         (Reachable.configure "g" exC1cfg (Reachable.init 100 3 [])))),
   by decide⟩

/-- **C1** (amended direction). For a group with `max_concurrency = some m`,
`0 < m`, and duplicate-free targets: (i) a group-addressed send arriving while
the active sum has reached the cap appends the pending request at the tail of
the group's queue and returns `queued`, changing nothing else; (ii) a
group-addressed send arriving below the cap leaves the active sum ≤ m; (iii)
the queue drain loop keeps the active sum ≤ m; (iv) the drain loop consumes
the queue strictly from the front (the remaining queue is always a suffix of
the original: FIFO order). The cap bounds only group-routed sends: direct
sends to a member target are not checked (see the counterexample). -/
theorem peepsy_C1 (now : Int) (action gid : String) (timeout : Int) (caller : Nat)
    (s : MasterState) (g : GroupEntry) (m : Int)
    (hg : alGet gid s.groups = some g)
    (hm : g.config.maxConcurrency = some m)
    (hmpos : 0 < m)
    (hnd : g.targets.Nodup) :
    ((groupActiveSum s g.targets : Int) ≥ m →
      executeRequest now action gid timeout caller s
        = ({ s with groupQueues := alSet gid ((alGet gid s.groupQueues).getD [] ++ [{ action := action, timeout := timeout, caller := caller }]) s.groupQueues },
           ExecOutcome.queuedOut))
    ∧ ((groupActiveSum s g.targets : Int) < m →
      (groupActiveSum (executeRequest now action gid timeout caller s).1
          g.targets : Int) ≤ m)
    ∧ ((groupActiveSum s g.targets : Int) ≤ m →
      ∀ fuel, (groupActiveSum (drainQueue now gid fuel s) g.targets : Int) ≤ m)
    ∧ (∀ fuel, ∃ k, (alGet gid (drainQueue now gid fuel s).groupQueues).getD []
        = ((alGet gid s.groupQueues).getD []).drop k) := by
  refine ⟨?_, ?_, ?_, ?_⟩
  · intro hge
    exact exec_atCap now action gid timeout caller s g m hg hm hmpos hge
  · intro hlt
    exact exec_cap_preserved now action gid timeout caller s g m hg hm hnd hlt
  · intro hle fuel
    exact drainQueue_cap_preserved now gid fuel s g m hg hm hnd hle
  · intro fuel
    exact drainQueue_fifo now gid fuel s

/-- Witness for C1 at the concrete at-cap state `exC1sat`: the hypotheses hold
and a group-addressed send queues the pending request. -/
theorem peepsy_C1_witness :
    (alGet "g" exC1sat.groups = some ({ targets := ["a"], config := exC1cfg } : GroupEntry)
      ∧ ({ targets := ["a"], config := exC1cfg } : GroupEntry).config.maxConcurrency = some 1
      ∧ (0 : Int) < 1
      ∧ (["a"] : List Target).Nodup
      ∧ (groupActiveSum exC1sat ["a"] : Int) ≥ 1)
    ∧ executeRequest 50 "act2" "g" 5000 3 exC1sat
        = ({ exC1sat with groupQueues := alSet "g" ((alGet "g" exC1sat.groupQueues).getD [] ++ [{ action := "act2", timeout := 5000, caller := 3 }]) exC1sat.groupQueues },
           ExecOutcome.queuedOut) :=
  ⟨⟨by decide, rfl, by decide, by decide, by decide⟩,
   (peepsy_C1 50 "act2" "g" 5000 3 exC1sat { targets := ["a"], config := exC1cfg } 1
      (by decide) rfl (by decide) (by decide)).1 (by decide)⟩

end Peepsy
